import Mathlib

/-!
# Control loop of the motion-monitoring node (`src/main.cpp`, function `demo`)

Shallow embedding of the `while(true)` loop of `demo()`: one call of `loopBody`
is one iteration of the loop.  The globals of `main.cpp` that the loop touches
are the fields of `State`; everything the loop obtains from outside (timer
readings, the classifier scores, the gyroscope axes, the wall clock and the
result of creating and submitting each message) is a field of `Input`.

Conventions.
* C strings (`NN_State`, `NN_State_old`, `ts_string`) are lists of characters,
  `strcpy` is assignment and `strcmp(a, b) == 0` is equality.
* `message[1200][80]` is one contiguous block of characters, addressed from the
  start of the array: slot `k` starts at address `80 * k`.  `sprintf` stores the
  text followed by the terminating NUL, whatever the length of the text.
* `int` values are integers; the sums and differences the loop computes on
  durations are reduced to the 32-bit signed range by `wrapInt32`.
  The cursor `i` is only ever incremented by one or assigned a loop index, and
  is left as an unbounded integer.
-/

set_option maxRecDepth 1000000

namespace MotionNode

/-! ## Constants of `main.cpp` -/

/-- Number of slots of `message` (line 43). -/
def message_buf_size : Int := 1200

/-- Size in bytes of one slot of `message` (line 44). -/
def slot_size : Int := 80

/-- Upload interval in microseconds (line 36). -/
def time_between_messages_us : Int := 60000000

/-- Idle time in milliseconds after which the classifier is disabled (line 37). -/
def timeout_unused_ms : Int := 30000

/-- Device identifier printed in every record (line 48). -/
def DeviceID : Int := 3

/-! ## Characters, strings and the message memory -/

/-- The string terminator. -/
def NUL : Char := Char.ofNat 0

/-- Characters of a char array up to, and without, its first NUL. -/
def cstr (s : List Char) : List Char := s.takeWhile (fun c => c != NUL)

/-- Result of an `int` computation on a machine with 32-bit signed `int`. -/
def wrapInt32 (x : Int) : Int := (x + 2147483648) % 4294967296 - 2147483648

/-- The value fits a 32-bit `int`. -/
def inInt32 (x : Int) : Prop := -2147483648 ≤ x ∧ x < 2147483648

instance (x : Int) : Decidable (inInt32 x) :=
  inferInstanceAs (Decidable (-2147483648 ≤ x ∧ x < 2147483648))

/-- Store `text` and its terminating NUL at address `base` (what `sprintf` does
with its destination). -/
def storeCStr (mem : Int → Char) (base : Int) : List Char → (Int → Char)
  | [] => Function.update mem base NUL
  | c :: cs => storeCStr (Function.update mem base c) (base + 1) cs

/-- Read the NUL-terminated string that starts at `base`, looking at no more
than `fuel` characters. -/
def loadCStr (mem : Int → Char) (base : Int) : Nat → List Char
  | 0 => []
  | fuel + 1 => if mem base = NUL then [] else mem base :: loadCStr mem (base + 1) fuel

/-- Address of the first byte of `message[slot]`. -/
def slotAddr (slot : Int) : Int := slot_size * slot

/-- The 80 bytes of `message[slot]`. -/
def slotBytes (mem : Int → Char) (slot : Int) : List Char :=
  (List.range 80).map (fun (k : Nat) => mem (slotAddr slot + (k : Int)))

/-- The C string found at `message[slot]`, as `IoTHubMessage_CreateFromString`
or a `%s` conversion would read it (the whole array is 96000 bytes long). -/
def slotText (mem : Int → Char) (slot : Int) : List Char :=
  loadCStr mem (slotAddr slot) 96000

/-! ## Formatting -/

/-- Contents of the four arrays filled by `strftime` at lines 366-369. -/
structure WallClock where
  tsV_day : List Char
  tsV_month : List Char
  tsV_year : List Char
  tsV_time : List Char

/-- Line 370: `sprintf(ts_string, "%.4s%.2s%.2s %.8s", tsV_year, tsV_month,
tsV_day, tsV_time)`. -/
def formatTimestamp (c : WallClock) : List Char :=
  (cstr c.tsV_year).take 4 ++ (cstr c.tsV_month).take 2 ++ (cstr c.tsV_day).take 2
    ++ " ".toList ++ (cstr c.tsV_time).take 8

/-- Lines 347 and 377: the text produced by the record format of `sprintf`, a
JSON object with the members TimeStamp (`%s`), DeviceID (`%d`), State (`%s`) and
Duration (`%d`); in the literals below `\x7b` and `\x7d` are the braces and
`\x22` is the double quote. -/
def formatRecord (ts : List Char) (device : Int) (state : List Char) (duration : Int) :
    List Char :=
  "\x7b\x22TimeStamp\x22:\x22".toList ++ ts ++ "\x22,\x22DeviceID\x22:".toList
    ++ (Int.repr device).toList ++ ",\x22State\x22:\x22".toList ++ state
    ++ "\x22,\x22Duration\x22:".toList ++ (Int.repr duration).toList ++ "\x7d".toList

/-! ## Labels and the classifier result -/

def lblSquat : List Char := "Squat".toList
def lblStand : List Char := "Stand".toList
def lblStoop : List Char := "Stoop".toList
def lblWalk : List Char := "Walk".toList
def lblAnomaly : List Char := "Anomaly".toList
def lblUnused : List Char := "Unused".toList

/-- The value `"x"` written by lines 244 and 356. -/
def lblUnset : List Char := "x".toList

/-- Initial value of `NN_State` (line 49). -/
def lblInitial : List Char := "LOL".toList

/-- Lines 294-304: scan of the label scores, each already converted by
`static_cast<int>(value*100)`; `ix` is the loop index. -/
def largestIndex : List Int → Nat → Int → Nat → Nat
  | [], _, _, largest_index_val => largest_index_val
  | v :: vs, ix, largest_val, largest_index_val =>
      if v > largest_val then largestIndex vs (ix + 1) v ix
      else largestIndex vs (ix + 1) largest_val largest_index_val

/-- Lines 310-321: the `switch` on `largest_index_val`. -/
def labelOfIndex : Nat → List Char
  | 0 => lblSquat
  | 1 => lblStand
  | 2 => lblStoop
  | 3 => lblWalk
  | _ => lblAnomaly

/-- Label stored in `NN_State` by an Active-mode iteration. -/
def classify (scores : List Int) : List Char :=
  labelOfIndex (largestIndex scores 0 0 0)

/-! ## State and inputs of one loop iteration -/

/-- Result of `IoTHubMessage_CreateFromString` followed by
`IoTHubDeviceClient_SendEventAsync` for one record. -/
inductive SendOutcome where
  | sent
  | createFailed
  | sendFailed
  deriving DecidableEq

/-- Globals of `main.cpp` used by the loop. -/
structure State where
  message : Int → Char
  i : Int
  ts_string : List Char
  NN_State : List Char
  NN_State_old : List Char
  streak_duration : Int
  Duration : Int
  loopOld : Int
  loopNew : Int
  t_previous_send : Int
  ML_enabled : Bool

/-- What one iteration reads from its environment. -/
structure Input where
  /-- Value of `t.read_us()` in the condition of line 188. -/
  read_us_check : Int
  /-- Value of `t.read_us()` at line 191. -/
  read_us_stamp : Int
  /-- Outcome of creating and submitting `message[m]`, for each slot `m`. -/
  send : Int → SendOutcome
  /-- Values `static_cast<int>(result.classification[ix].value*100)`. -/
  scores : List Int
  /-- The three entries of `gyro_val_buf` after line 327. -/
  gyro0 : Int
  gyro1 : Int
  gyro2 : Int
  /-- Value of `t.read_ms()` at line 340. -/
  read_ms : Int
  /-- Calendar time at lines 363-369. -/
  clock : WallClock

/-- State at the first evaluation of the loop condition: the globals as
initialised at lines 38-58 (static storage is zeroed). -/
def initialState : State where
  message := fun _ => NUL
  i := 0
  ts_string := []
  NN_State := lblInitial
  NN_State_old := "streak".toList
  streak_duration := 0
  Duration := 0
  loopOld := 0
  loopNew := 0
  t_previous_send := 0
  ML_enabled := true

/-- A use of a slot of `message` by the loop. -/
inductive Access where
  /-- `message[m]` read by the send loop (lines 209, 211). -/
  | drainRead (m : Int)
  /-- `sprintf(message[i-1], ...)` of line 347, with the index `i-1`. -/
  | rewrite (slot : Int)
  /-- `sprintf(message[i], ...)` of line 377, with the index `i`. -/
  | append (slot : Int)
  deriving DecidableEq

/-- Slot index used by an access. -/
def Access.slot : Access → Int
  | .drainRead m => m
  | .rewrite s => s
  | .append s => s

/-! ## The send loop (lines 208-240) -/

/-- How the `for` loop of line 208 ends. -/
structure BatchResult where
  /-- Value of the cursor `i` when the loop is left. -/
  i : Int
  /-- The loop was left by `goto cleanup`. -/
  gotoCleanup : Bool
  /-- Slots read, in the order of the reads. -/
  reads : List Int

/-- The `for (int m = i-1; m>=0; m--)` loop with `n` iterations left, the next
one being for `m = n - 1`; `i` is the current value of the cursor. -/
def sendBatch (send : Int → SendOutcome) : Nat → Int → BatchResult
  | 0, i => ⟨i, false, []⟩
  | m + 1, i =>
    match send (m : Int) with
    | .createFailed =>
        if i < message_buf_size - 1 then ⟨i, false, [(m : Int)]⟩ else ⟨i, true, [(m : Int)]⟩
    | .sendFailed =>
        if i < message_buf_size - 1 then ⟨i, false, [(m : Int)]⟩ else ⟨i, true, [(m : Int)]⟩
    | .sent =>
        let r := sendBatch send m (m : Int)
        ⟨r.i, r.gotoCleanup, (m : Int) :: r.reads⟩

/-! ## One iteration of `while(true)` (lines 185-391) -/

/-- State after a part of an iteration, whether control went to `cleanup`, and
the slots of `message` used. -/
structure Iteration where
  state : State
  cleanup : Bool
  trace : List Access

/-- Lines 187-188: a batch is sent in this iteration. -/
def drainDue (st : State) (inp : Input) : Bool :=
  decide (st.i > 0) &&
    (decide (inp.read_us_check > st.t_previous_send + time_between_messages_us)
      || decide (st.i ≥ message_buf_size - 1))

/-- Lines 187-255: batch message sending. -/
def batchSend (st : State) (inp : Input) : Iteration :=
  if drainDue st inp then
    let r := sendBatch inp.send st.i.toNat st.i
    if r.gotoCleanup then
      ⟨{ st with t_previous_send := inp.read_us_stamp, i := r.i }, true,
        r.reads.map Access.drainRead⟩
    else
      ⟨{ st with t_previous_send := inp.read_us_stamp, i := r.i, NN_State := lblUnset }, false,
        r.reads.map Access.drainRead⟩
  else ⟨st, false, []⟩

/-- Line 328: the wake test on the gyroscope axes. -/
def gyroOverLimit (inp : Input) : Bool :=
  decide (inp.gyro0 > 5000) || decide (inp.gyro1 > 5000) || decide (inp.gyro2 > 5000)

/-- Lines 257-336: save the previous label, then classify (classifier enabled)
or report `Unused` and poll the gyroscope (classifier disabled). -/
def classifyOrPoll (st : State) (inp : Input) : State :=
  let st1 := { st with NN_State_old := st.NN_State }
  if st1.ML_enabled = true then
    { st1 with NN_State := classify inp.scores }
  else
    let st2 := { st1 with NN_State := lblUnused }
    if gyroOverLimit inp then { st2 with ML_enabled := true, i := st2.i + 1 }
    else st2

/-- Lines 339-341: duration of the current reading. -/
def measureDuration (st : State) (inp : Input) : State :=
  { st with loopOld := st.loopNew, loopNew := inp.read_ms,
            Duration := wrapInt32 (inp.read_ms - st.loopNew) }

/-- Lines 344-380: the streak `if` statement. -/
def streakUpdate (st : State) (inp : Input) : State × List Access :=
  if st.NN_State = st.NN_State_old then
    let sd := wrapInt32 (st.streak_duration + st.Duration)
    let st1 := { st with
      streak_duration := sd,
      message := storeCStr st.message (slotAddr (st.i - 1))
        (formatRecord st.ts_string DeviceID st.NN_State sd) }
    if st1.NN_State = lblStoop ∧ sd > timeout_unused_ms then
      ({ st1 with ML_enabled := false, NN_State := lblUnset }, [Access.rewrite (st.i - 1)])
    else (st1, [Access.rewrite (st.i - 1)])
  else
    let ts := formatTimestamp inp.clock
    ({ st with
        streak_duration := st.Duration,
        ts_string := ts,
        message := storeCStr st.message (slotAddr st.i)
          (formatRecord ts DeviceID st.NN_State st.Duration),
        i := st.i + 1 }, [Access.append st.i])

/-- One iteration of the `while(true)` loop of `demo`. -/
def loopBody (st : State) (inp : Input) : Iteration :=
  let b := batchSend st inp
  if b.cleanup then b
  else
    let r := streakUpdate (measureDuration (classifyOrPoll b.state inp) inp) inp
    ⟨r.1, false, b.trace ++ r.2⟩

/-- The loop run on a list of inputs, one per iteration, until the inputs are
used up or control reaches `cleanup`; the trace is that of all iterations. -/
def runLoop : State → List Input → Iteration
  | st, [] => ⟨st, false, []⟩
  | st, inp :: rest =>
    let r := loopBody st inp
    if r.cleanup then r
    else
      let r2 := runLoop r.state rest
      ⟨r2.state, r2.cleanup, r.trace ++ r2.trace⟩

/-! ## Runs -/

/-- Values of `Duration` (line 341) in the successive iterations of a run that
starts with `loopNew = prev`. -/
def elapsedTimes (prev : Int) : List Input → List Int
  | [] => []
  | inp :: rest => wrapInt32 (inp.read_ms - prev) :: elapsedTimes inp.read_ms rest

/-- Sum of the first `k` values of `Duration` of a run started in `st`. -/
def streakSum (st : State) (inputs : List Input) (k : Nat) : Int :=
  ((elapsedTimes st.loopNew inputs).take k).sum

/-- Every iteration of the run starts with the classifier enabled and sends no
batch. -/
def activeNoDrain : State → List Input → Bool
  | _, [] => true
  | st, inp :: rest =>
    st.ML_enabled && !(drainDue st inp) && activeNoDrain (loopBody st inp).state rest

/-- No iteration of the run sends a batch. -/
def noBatchDue : State → List Input → Bool
  | _, [] => true
  | st, inp :: rest => !(drainDue st inp) && noBatchDue (loopBody st inp).state rest

/-- Every iteration of the run starts with the classifier disabled, so that it
polls the gyroscope and does not classify, and none ends in `cleanup`. -/
def allPolls : State → List Input → Bool
  | _, [] => true
  | st, inp :: rest =>
    !st.ML_enabled && !(loopBody st inp).cleanup && allPolls (loopBody st inp).state rest

/-- The slot index of an access is a valid index of `message`. -/
def Access.inRange (a : Access) : Prop := 0 ≤ a.slot ∧ a.slot < message_buf_size

/-- Relation between cursor and label at the top of the loop: the cursor is in
`0..1200`, and it is 0 only while no label has been recorded since the start or
since the last batch. -/
def cursorInv (st : State) : Prop :=
  0 ≤ st.i ∧ st.i ≤ message_buf_size ∧
    (st.i = 0 → st.NN_State = lblInitial ∨ st.NN_State = lblUnset)

/-! ## Example inputs -/

/-- Calendar time 2024-01-01 12:00:00 as left by `strftime`. -/
def exampleClock : WallClock :=
  { tsV_day := "01".toList, tsV_month := "01".toList, tsV_year := "2024".toList,
    tsV_time := "12:00:00".toList }

/-- Calendar time 2024-01-01 13:00:00 as left by `strftime`. -/
def laterClock : WallClock :=
  { tsV_day := "01".toList, tsV_month := "01".toList, tsV_year := "2024".toList,
    tsV_time := "13:00:00".toList }

/-- Input of an iteration that starts when the timer reads `prev` ms and ends
when it reads `ms` ms, with the given classifier scores, every message sent and
the gyroscope at rest. -/
def tickAt (scores : List Int) (prev ms : Int) : Input :=
  { read_us_check := 1000 * prev, read_us_stamp := 1000 * prev,
    send := fun _ => SendOutcome.sent, scores := scores,
    gyro0 := 0, gyro1 := 0, gyro2 := 0, read_ms := ms, clock := exampleClock }

/-- Input of an iteration like `tickAt`, with the given gyroscope readings and
the later calendar time. -/
def pollAt (g0 g1 g2 : Int) (prev ms : Int) : Input :=
  { read_us_check := 1000 * prev, read_us_stamp := 1000 * prev,
    send := fun _ => SendOutcome.sent, scores := [],
    gyro0 := g0, gyro1 := g1, gyro2 := g2, read_ms := ms, clock := laterClock }

/-- Scores (in percent) whose largest entry is at index 1, `Stand`. -/
def scoresStand : List Int := [0, 90, 5, 5]

/-- Scores (in percent) whose largest entry is at index 2, `Stoop`. -/
def scoresStoop : List Int := [0, 5, 90, 5]

/-- Scores (in percent) whose largest entry is at index 3, `Walk`. -/
def scoresWalk : List Int := [0, 5, 5, 90]

/-- Two `Stand` classifications, 500 ms each. -/
def standTicks : List Input := [tickAt scoresStand 0 500, tickAt scoresStand 500 1000]

/-- Sixty-one `Stoop` classifications, 500 ms each, after `standTicks`. -/
def stoopTicks : List Input :=
  (List.range 61).map (fun (k : Nat) => tickAt scoresStoop (1000 + 500 * (k : Int)) (1500 + 500 * (k : Int)))

/-- A `Stoop` streak that times out at its second iteration: 1000 ms, then
30000 ms more. -/
def sleepTicks : List Input := [tickAt scoresStoop 0 1000, tickAt scoresStoop 1000 31000]

/-- A run that fills the buffer while less than one upload interval elapses:
1197 classifications alternating `Stand` and `Walk`, 20 ms apart, a `Stoop`
classification, and a second `Stoop` classification 30001 ms later, which
disables the classifier. -/
def fillTicks : List Input :=
  (List.range 1197).map (fun (k : Nat) =>
      tickAt (if k % 2 = 0 then scoresStand else scoresWalk) (20 * (k : Int)) (20 * (k : Int) + 20))
    ++ [tickAt scoresStoop 23940 23960, tickAt scoresStoop 23960 53961]

/-- A poll right after `fillTicks` that sees a reading above the limit. -/
def fillWake : Input := pollAt 6000 0 0 53961 53970

/-- An iteration after `fillTicks` and `fillWake` in which the record of slot
1199 is sent and no other record can be created. -/
def failAfterFirst : Input :=
  { read_us_check := 53970000, read_us_stamp := 53970000,
    send := fun m => if m = 1199 then SendOutcome.sent else SendOutcome.createFailed,
    scores := [], gyro0 := 0, gyro1 := 0, gyro2 := 0, read_ms := 54000, clock := laterClock }

/-- Ten polls with the gyroscope at rest, one second apart, after `sleepTicks`. -/
def quietPolls : List Input :=
  (List.range 10).map (fun (k : Nat) => pollAt 0 0 0 (31000 + 1000 * (k : Int)) (32000 + 1000 * (k : Int)))

/-- Three classifications `Stand`, `Walk`, `Stand` that end 20000, 40000 and
60001 ms after the start. -/
def threeTicks : List Input :=
  [tickAt scoresStand 0 20000, tickAt scoresWalk 20000 40000, tickAt scoresStand 40000 60001]

/-- The iteration after `threeTicks`, more than one upload interval after the
start, in which the record of slot 2 is sent and the record of slot 1 is refused
by `IoTHubDeviceClient_SendEventAsync`. -/
def failAtSlotOne : Input :=
  { read_us_check := 60001000, read_us_stamp := 60001000,
    send := fun m => if m = 2 then SendOutcome.sent else SendOutcome.sendFailed,
    scores := scoresStand, gyro0 := 0, gyro1 := 0, gyro2 := 0, read_ms := 61001,
    clock := laterClock }

/-- Two `Stand` classifications that end 30000 and 60001 ms after the start. -/
def longStandTicks : List Input :=
  [tickAt scoresStand 0 30000, tickAt scoresStand 30000 60001]

/-- A `Stoop` streak that times out at its second iteration, 60001 ms after the
start. -/
def lateSleepTicks : List Input :=
  [tickAt scoresStoop 0 30000, tickAt scoresStoop 30000 60001]

/-- A poll with the gyroscope at rest that starts 60001 ms after the start, more
than one upload interval: the batch is due, and every record is sent. -/
def duePoll : Input := pollAt 0 0 0 60001 61001

/-- A poll with the gyroscope at rest, right after `sleepTicks`, that lasts one
second (the scores are not read while the classifier is disabled). -/
def restPoll : Input := tickAt [] 31000 32000

/-- A poll that sees a reading above the limit on the first axis. -/
def wakePoll (prev ms : Int) : Input := pollAt 6000 0 0 prev ms

/-- A poll that sees a reading of magnitude 6000 in the negative direction on
the first axis. -/
def negativePoll : Input := pollAt (-6000) 0 0 31000 32000

/-- A `Walk` classification of 500 ms that starts 60001 ms after the start, more
than one upload interval; every record is sent. -/
def dueWalk : Input := tickAt scoresWalk 60001 60501

/-- A first `Stoop` classification that ends 40000 ms after the start. -/
def longStoop : Input := tickAt scoresStoop 0 40000

/-! ## Predicates used in the statements -/

/-- The five labels the `switch` of lines 310-321 can store. -/
def isClassLabel (L : List Char) : Prop :=
  L = lblSquat ∨ L = lblStand ∨ L = lblStoop ∨ L = lblWalk ∨ L = lblAnomaly

/-! # Theorems -/

/-! ## Arithmetic -/

theorem wrapInt32_of_inInt32 {x : Int} (h : inInt32 x) : wrapInt32 x = x := by
  unfold inInt32 at h
  unfold wrapInt32
  omega

theorem wrapInt32_add_wrapInt32 (a b : Int) :
    wrapInt32 (wrapInt32 a + b) = wrapInt32 (a + b) := by
  unfold wrapInt32
  omega

theorem wrapInt32_wrapInt32_add (a b : Int) :
    wrapInt32 (a + wrapInt32 b) = wrapInt32 (a + b) := by
  unfold wrapInt32
  omega

theorem inInt32_wrapInt32 (x : Int) : inInt32 (wrapInt32 x) := by
  unfold inInt32 wrapInt32
  omega

/-! ## The message memory -/

theorem storeCStr_below (text : List Char) (mem : Int → Char) (base a : Int) (h : a < base) :
    storeCStr mem base text a = mem a := by
  induction text generalizing mem base with
  | nil =>
    have hne : a ≠ base := by omega
    simp [storeCStr, Function.update_noteq hne]
  | cons c cs ih =>
    have hne : a ≠ base := by omega
    rw [storeCStr, ih _ _ (by omega), Function.update_noteq hne]

theorem storeCStr_above (text : List Char) (mem : Int → Char) (base a : Int)
    (h : base + text.length < a) : storeCStr mem base text a = mem a := by
  induction text generalizing mem base with
  | nil =>
    have hne : a ≠ base := by simp at h; omega
    simp [storeCStr, Function.update_noteq hne]
  | cons c cs ih =>
    have hlen : base + 1 + (cs.length : Int) < a := by simp at h; omega
    have hne : a ≠ base := by simp at h; omega
    rw [storeCStr, ih _ _ hlen, Function.update_noteq hne]

theorem loadCStr_storeCStr (text : List Char) (mem : Int → Char) (base : Int) (fuel : Nat)
    (hnul : ∀ c ∈ text, c ≠ NUL) (hfuel : text.length < fuel) :
    loadCStr (storeCStr mem base text) base fuel = text := by
  induction text generalizing mem base fuel with
  | nil =>
    cases fuel with
    | zero => simp at hfuel
    | succ f => simp [loadCStr, storeCStr]
  | cons c cs ih =>
    cases fuel with
    | zero => simp at hfuel
    | succ f =>
      have hc : c ≠ NUL := hnul c (by simp)
      have hhead : storeCStr (Function.update mem base c) (base + 1) cs base = c := by
        rw [storeCStr_below _ _ _ _ (by omega)]
        simp
      simp only [loadCStr, storeCStr, hhead, hc, if_false]
      rw [ih _ _ _ (fun x hx => hnul x (by simp [hx])) (by simpa using hfuel)]

theorem loadCStr_congr (m1 m2 : Int → Char) (bound : Int) : ∀ (fuel : Nat) (base : Int),
    (∀ a, base ≤ a → a < bound → m1 a = m2 a) →
    base + (loadCStr m2 base fuel).length < bound →
    loadCStr m1 base fuel = loadCStr m2 base fuel := by
  intro fuel
  induction fuel with
  | zero => intro base _ _; rfl
  | succ f ih =>
    intro base hagree hlen
    have hb : m1 base = m2 base := hagree base (le_refl _) (by omega)
    simp only [loadCStr, hb] at hlen ⊢
    by_cases hz : m2 base = NUL
    · simp [hz]
    · simp only [hz, if_false, List.length_cons] at hlen ⊢
      rw [ih (base + 1) (fun a h1 h2 => hagree a (by omega) h2) (by push_cast at hlen; omega)]

theorem slotBytes_congr (m1 m2 : Int → Char) (j : Int)
    (h : ∀ a, a < slotAddr (j + 1) → m1 a = m2 a) : slotBytes m1 j = slotBytes m2 j := by
  unfold slotBytes
  apply List.map_congr_left
  intro k hk
  have hk2 : k < 80 := by simpa using hk
  apply h
  unfold slotAddr slot_size
  omega

/-! ## Formatting -/

theorem noNUL_of_all (s : List Char) (h : (s.all (fun c => c != NUL)) = true) :
    ∀ c ∈ s, c ≠ NUL := by
  intro c hc
  have := List.all_eq_true.mp h c hc
  simpa using this

theorem cstr_noNUL (s : List Char) : ∀ c ∈ cstr s, c ≠ NUL := by
  intro c hc
  have h := List.mem_takeWhile_imp hc
  simpa using h

theorem formatTimestamp_noNUL (c : WallClock) : ∀ x ∈ formatTimestamp c, x ≠ NUL := by
  intro x hx
  simp only [formatTimestamp, List.mem_append] at hx
  rcases hx with (((hx | hx) | hx) | hx) | hx
  · exact cstr_noNUL _ x (List.mem_of_mem_take hx)
  · exact cstr_noNUL _ x (List.mem_of_mem_take hx)
  · exact cstr_noNUL _ x (List.mem_of_mem_take hx)
  · exact noNUL_of_all _ (by decide) x hx
  · exact cstr_noNUL _ x (List.mem_of_mem_take hx)

theorem formatTimestamp_length_le (c : WallClock) : (formatTimestamp c).length ≤ 17 := by
  simp only [formatTimestamp, List.length_append, List.length_take]
  have : " ".toList.length = 1 := by decide
  omega

theorem digitChar_ne_NUL (n : Nat) : Nat.digitChar (n % 10) ≠ NUL := by
  have h : n % 10 < 10 := Nat.mod_lt _ (by decide)
  generalize n % 10 = k at h
  interval_cases k <;> decide

theorem toDigitsCore_noNUL (f : Nat) : ∀ (n : Nat) (ds : List Char),
    (∀ c ∈ ds, c ≠ NUL) → ∀ c ∈ Nat.toDigitsCore 10 f n ds, c ≠ NUL := by
  induction f with
  | zero => intro n ds h c hc; simpa [Nat.toDigitsCore] using h c (by simpa [Nat.toDigitsCore] using hc)
  | succ f ih =>
    intro n ds h c hc
    have hds : ∀ x ∈ Nat.digitChar (n % 10) :: ds, x ≠ NUL := by
      intro x hx
      rcases List.mem_cons.mp hx with rfl | hx
      · exact digitChar_ne_NUL _
      · exact h x hx
    simp only [Nat.toDigitsCore] at hc
    split at hc
    · exact hds c hc
    · exact ih _ _ hds c hc

theorem natRepr_noNUL (n : Nat) : ∀ c ∈ (Nat.repr n).toList, c ≠ NUL := by
  intro c hc
  have hc2 : c ∈ Nat.toDigits 10 n := by simpa [Nat.repr, List.asString] using hc
  exact toDigitsCore_noNUL _ _ _ (by simp) c hc2

theorem intRepr_noNUL (d : Int) : ∀ c ∈ (Int.repr d).toList, c ≠ NUL := by
  intro c hc
  cases d with
  | ofNat m => exact natRepr_noNUL m c (by simpa [Int.repr] using hc)
  | negSucc m =>
    have h2 : c ∈ "-".toList ++ (Nat.repr (m + 1)).toList := by
      simpa [Int.repr, String.toList, String.data_append] using hc
    rcases List.mem_append.mp h2 with h | h
    · exact noNUL_of_all _ (by decide) c h
    · exact natRepr_noNUL _ c h

theorem intRepr_length_le (d : Int) (h : inInt32 d) : (Int.repr d).toList.length ≤ 11 := by
  unfold inInt32 at h
  cases d with
  | ofNat m =>
    have hm : m < 10 ^ 10 := by
      have : (m : Int) < 2147483648 := h.2
      omega
    have := Nat.repr_length m 10 (by decide) hm
    simpa [Int.repr] using Nat.le_succ_of_le this
  | negSucc m =>
    have hm : m + 1 < 10 ^ 10 := by
      have h0 : -2147483648 ≤ Int.negSucc m := h.1
      have h1 : Int.negSucc m = -((m : Int) + 1) := rfl
      omega
    have := Nat.repr_length (m + 1) 10 (by decide) hm
    have h2 : (Int.repr (Int.negSucc m)).toList = "-".toList ++ (Nat.repr (m + 1)).toList := by
      simp [Int.repr, String.toList, String.data_append]
    rw [h2, List.length_append]
    have h1 : "-".toList.length = 1 := by decide
    have h3 : (Nat.repr (m + 1)).toList.length = (Nat.repr (m + 1)).length := rfl
    omega

theorem formatRecord_length (ts : List Char) (device : Int) (state : List Char) (d : Int) :
    (formatRecord ts device state d).length
      = 51 + ts.length + (Int.repr device).toList.length + state.length
          + (Int.repr d).toList.length := by
  have h1 : "\x7b\x22TimeStamp\x22:\x22".toList.length = 14 := by decide
  have h2 : "\x22,\x22DeviceID\x22:".toList.length = 13 := by decide
  have h3 : ",\x22State\x22:\x22".toList.length = 10 := by decide
  have h4 : "\x22,\x22Duration\x22:".toList.length = 13 := by decide
  have h5 : "\x7d".toList.length = 1 := by decide
  simp only [formatRecord, List.length_append, h1, h2, h3, h4, h5]
  omega

theorem formatRecord_noNUL (ts : List Char) (device : Int) (state : List Char) (d : Int)
    (hts : ∀ c ∈ ts, c ≠ NUL) (hst : ∀ c ∈ state, c ≠ NUL) :
    ∀ c ∈ formatRecord ts device state d, c ≠ NUL := by
  have lit := noNUL_of_all
  intro c hc
  simp only [formatRecord, List.mem_append] at hc
  rcases hc with (((((((h | h) | h) | h) | h) | h) | h) | h) | h
  · exact lit _ (by decide) c h
  · exact hts c h
  · exact lit _ (by decide) c h
  · exact intRepr_noNUL _ c h
  · exact lit _ (by decide) c h
  · exact hst c h
  · exact lit _ (by decide) c h
  · exact intRepr_noNUL _ c h
  · exact lit _ (by decide) c h

theorem classify_isClassLabel (scores : List Int) : isClassLabel (classify scores) := by
  unfold classify isClassLabel
  generalize largestIndex scores 0 0 0 = n
  rcases n with _ | _ | _ | _ | n <;> simp [labelOfIndex]

theorem classLabel_noNUL {L : List Char} (h : isClassLabel L) : ∀ c ∈ L, c ≠ NUL := by
  have lit := noNUL_of_all
  rcases h with h | h | h | h | h <;> subst h <;> exact lit _ (by decide)

theorem classLabel_length_le {L : List Char} (h : isClassLabel L) : L.length ≤ 7 := by
  rcases h with h | h | h | h | h <;> subst h <;> decide

theorem classLabel_ne_unset {L : List Char} (h : isClassLabel L) : L ≠ lblUnset := by
  rcases h with h | h | h | h | h <;> subst h <;> decide

theorem classLabel_ne_initial {L : List Char} (h : isClassLabel L) : L ≠ lblInitial := by
  rcases h with h | h | h | h | h <;> subst h <;> decide

theorem record_length_lt (c : WallClock) (L : List Char) (d : Int) (hL : isClassLabel L)
    (hd : inInt32 d) :
    (formatRecord (formatTimestamp c) DeviceID L d).length < 96000 := by
  rw [formatRecord_length]
  have h1 := formatTimestamp_length_le c
  have h2 := classLabel_length_le hL
  have h3 := intRepr_length_le d hd
  have h4 : (Int.repr DeviceID).toList.length = 1 := by decide
  omega

/-! ## The send loop -/

/-- The send loop when the records above slot `m` are sent and the one at slot
`m` fails. -/
theorem sendBatch_fail_at (send : Int → SendOutcome) (m : Nat) : ∀ (n : Nat) (i : Int),
    m < n → (∀ j : Nat, m < j → j < n → send (j : Int) = SendOutcome.sent) →
    send (m : Int) ≠ SendOutcome.sent →
    (sendBatch send n i).i = (if n = m + 1 then i else (m : Int) + 1) ∧
    (sendBatch send n i).gotoCleanup
      = decide (¬ ((if n = m + 1 then i else (m : Int) + 1) < message_buf_size - 1)) := by
  intro n
  induction n with
  | zero => intro i h; omega
  | succ n ih =>
    intro i hmn hsent hfail
    by_cases hnm : n = m
    · subst hnm
      cases hs : send (n : Int) with
      | sent => exact absurd hs hfail
      | createFailed =>
        by_cases hi : i < message_buf_size - 1 <;> simp [sendBatch, hs, hi]
      | sendFailed =>
        by_cases hi : i < message_buf_size - 1 <;> simp [sendBatch, hs, hi]
    · have hlt : m < n := by omega
      have hs : send (n : Int) = SendOutcome.sent := hsent n hlt (by omega)
      obtain ⟨h1, h2⟩ := ih (n : Int) hlt (fun j hj1 hj2 => hsent j hj1 (by omega)) hfail
      have hn1 : ¬ (n + 1 = m + 1) := by omega
      simp only [sendBatch, hs, h1, h2, hn1, if_false]
      by_cases hn2 : n = m + 1
      · subst hn2; simp
      · simp [hn2]

/-- The send loop when every record is sent. -/
theorem sendBatch_all_sent (send : Int → SendOutcome) : ∀ (n : Nat) (i : Int),
    (∀ j : Nat, j < n → send (j : Int) = SendOutcome.sent) →
    (sendBatch send n i).i = (if n = 0 then i else 0) ∧
    (sendBatch send n i).gotoCleanup = false := by
  intro n
  induction n with
  | zero => intro i _; simp [sendBatch]
  | succ n ih =>
    intro i hsent
    have hs : send (n : Int) = SendOutcome.sent := hsent n (by omega)
    obtain ⟨h1, h2⟩ := ih (n : Int) (fun j hj => hsent j (by omega))
    simp only [sendBatch, hs, h1, h2]
    by_cases hn : n = 0
    · subst hn; simp
    · simp [hn]

theorem sendBatch_no_cleanup (send : Int → SendOutcome) : ∀ (n : Nat),
    (n : Int) ≤ message_buf_size - 2 → (sendBatch send n (n : Int)).gotoCleanup = false := by
  intro n
  induction n with
  | zero => intro _; rfl
  | succ n ih =>
    intro hn
    have hlt : ((n + 1 : Nat) : Int) < message_buf_size - 1 := by omega
    have hn2 : (n : Int) ≤ message_buf_size - 2 := by push_cast at hn; omega
    cases hs : send (n : Int) with
    | sent => simp only [sendBatch, hs]; exact ih hn2
    | createFailed => simp only [sendBatch, hs, hlt, if_true]
    | sendFailed => simp only [sendBatch, hs, hlt, if_true]

theorem sendBatch_bounds (send : Int → SendOutcome) : ∀ (n : Nat),
    (∀ m ∈ (sendBatch send n (n : Int)).reads, 0 ≤ m ∧ m < (n : Int)) ∧
    0 ≤ (sendBatch send n (n : Int)).i ∧
    (sendBatch send n (n : Int)).i ≤ (n : Int) ∧
    ((sendBatch send n (n : Int)).gotoCleanup = false →
      (sendBatch send n (n : Int)).i ≤ message_buf_size - 2) := by
  intro n
  induction n with
  | zero => simp [sendBatch, message_buf_size]
  | succ n ih =>
    obtain ⟨i1, i2, i3, i4⟩ := ih
    have hcast : ((n + 1 : Nat) : Int) = (n : Int) + 1 := by push_cast; rfl
    cases hs : send (n : Int) with
    | sent =>
      simp only [sendBatch, hs]
      refine ⟨?_, i2, by omega, i4⟩
      intro m hm
      rcases List.mem_cons.mp hm with rfl | hm
      · omega
      · have := i1 m hm
        omega
    | createFailed =>
      by_cases hi : ((n + 1 : Nat) : Int) < message_buf_size - 1
      · simp only [sendBatch, hs, hi, if_true]
        refine ⟨?_, by omega, le_refl _, fun _ => by omega⟩
        intro m hm
        have : m = (n : Int) := by simpa using hm
        omega
      · simp only [sendBatch, hs, hi, if_false]
        refine ⟨?_, by omega, le_refl _, fun h => by simp at h⟩
        intro m hm
        have : m = (n : Int) := by simpa using hm
        omega
    | sendFailed =>
      by_cases hi : ((n + 1 : Nat) : Int) < message_buf_size - 1
      · simp only [sendBatch, hs, hi, if_true]
        refine ⟨?_, by omega, le_refl _, fun _ => by omega⟩
        intro m hm
        have : m = (n : Int) := by simpa using hm
        omega
      · simp only [sendBatch, hs, hi, if_false]
        refine ⟨?_, by omega, le_refl _, fun h => by simp at h⟩
        intro m hm
        have : m = (n : Int) := by simpa using hm
        omega

theorem drainDue_pos (st : State) (inp : Input) (h : drainDue st inp = true) : 0 < st.i := by
  simp only [drainDue, Bool.and_eq_true, decide_eq_true_eq] at h
  exact h.1

theorem batchSend_not_due (st : State) (inp : Input) (h : drainDue st inp = false) :
    batchSend st inp = ⟨st, false, []⟩ := by
  simp [batchSend, h]

/-- Lines 187-255 when a batch is sent. -/
theorem batchSend_due (st : State) (inp : Input) (h : drainDue st inp = true) :
    (batchSend st inp).cleanup = (sendBatch inp.send st.i.toNat st.i).gotoCleanup ∧
    (batchSend st inp).state.i = (sendBatch inp.send st.i.toNat st.i).i ∧
    (batchSend st inp).trace
      = (sendBatch inp.send st.i.toNat st.i).reads.map Access.drainRead ∧
    (batchSend st inp).state.message = st.message ∧
    (batchSend st inp).state.ML_enabled = st.ML_enabled ∧
    (batchSend st inp).state.loopNew = st.loopNew ∧
    (batchSend st inp).state.streak_duration = st.streak_duration ∧
    (batchSend st inp).state.ts_string = st.ts_string ∧
    ((batchSend st inp).cleanup = false → (batchSend st inp).state.NN_State = lblUnset) := by
  cases hc : (sendBatch inp.send st.i.toNat st.i).gotoCleanup <;> simp [batchSend, h, hc]

theorem batchSend_message (st : State) (inp : Input) :
    (batchSend st inp).state.message = st.message := by
  by_cases h : drainDue st inp = true
  · exact (batchSend_due st inp h).2.2.2.1
  · simp [batchSend, h]

/-! ## Single iterations and runs -/

/-- An Active-mode iteration without batch whose label differs from the current
one: lines 360-379. -/
theorem loopBody_open (st : State) (inp : Input) (hact : st.ML_enabled = true)
    (hnd : drainDue st inp = false) (hL : classify inp.scores ≠ st.NN_State) :
    (loopBody st inp).cleanup = false ∧
    (loopBody st inp).trace = [Access.append st.i] ∧
    (loopBody st inp).state.i = st.i + 1 ∧
    (loopBody st inp).state.ts_string = formatTimestamp inp.clock ∧
    (loopBody st inp).state.streak_duration = wrapInt32 (inp.read_ms - st.loopNew) ∧
    (loopBody st inp).state.loopNew = inp.read_ms ∧
    (loopBody st inp).state.t_previous_send = st.t_previous_send ∧
    (loopBody st inp).state.ML_enabled = true ∧
    (loopBody st inp).state.NN_State = classify inp.scores ∧
    (loopBody st inp).state.message = storeCStr st.message (slotAddr st.i)
      (formatRecord (formatTimestamp inp.clock) DeviceID (classify inp.scores)
        (wrapInt32 (inp.read_ms - st.loopNew))) := by
  simp [loopBody, batchSend_not_due st inp hnd, classifyOrPoll, hact, measureDuration,
    streakUpdate, hL]

/-- An Active-mode iteration without batch whose label equals the current one:
lines 345-358. -/
theorem loopBody_extend (st : State) (inp : Input) (hact : st.ML_enabled = true)
    (hnd : drainDue st inp = false) (hL : classify inp.scores = st.NN_State) :
    (loopBody st inp).cleanup = false ∧
    (loopBody st inp).trace = [Access.rewrite (st.i - 1)] ∧
    (loopBody st inp).state.i = st.i ∧
    (loopBody st inp).state.ts_string = st.ts_string ∧
    (loopBody st inp).state.streak_duration
      = wrapInt32 (st.streak_duration + wrapInt32 (inp.read_ms - st.loopNew)) ∧
    (loopBody st inp).state.loopNew = inp.read_ms ∧
    (loopBody st inp).state.t_previous_send = st.t_previous_send ∧
    (loopBody st inp).state.message = storeCStr st.message (slotAddr (st.i - 1))
      (formatRecord st.ts_string DeviceID st.NN_State
        (wrapInt32 (st.streak_duration + wrapInt32 (inp.read_ms - st.loopNew)))) ∧
    ((st.NN_State = lblStoop ∧ timeout_unused_ms
        < wrapInt32 (st.streak_duration + wrapInt32 (inp.read_ms - st.loopNew))) →
      (loopBody st inp).state.ML_enabled = false ∧ (loopBody st inp).state.NN_State = lblUnset) ∧
    (¬ (st.NN_State = lblStoop ∧ timeout_unused_ms
        < wrapInt32 (st.streak_duration + wrapInt32 (inp.read_ms - st.loopNew))) →
      (loopBody st inp).state.ML_enabled = true ∧ (loopBody st inp).state.NN_State = st.NN_State) := by
  by_cases hto : st.NN_State = lblStoop ∧ timeout_unused_ms
        < wrapInt32 (st.streak_duration + wrapInt32 (inp.read_ms - st.loopNew))
  · simp [loopBody, batchSend_not_due st inp hnd, classifyOrPoll, hact, measureDuration,
      streakUpdate, hL, hto]
  · simp [loopBody, batchSend_not_due st inp hnd, classifyOrPoll, hact, measureDuration,
      streakUpdate, hL, hto]

theorem runLoop_nil (st : State) : runLoop st [] = ⟨st, false, []⟩ := rfl

theorem runLoop_cons (st : State) (inp : Input) (rest : List Input)
    (h : (loopBody st inp).cleanup = false) :
    (runLoop st (inp :: rest)).state = (runLoop (loopBody st inp).state rest).state ∧
    (runLoop st (inp :: rest)).cleanup = (runLoop (loopBody st inp).state rest).cleanup ∧
    (runLoop st (inp :: rest)).trace
      = (loopBody st inp).trace ++ (runLoop (loopBody st inp).state rest).trace := by
  simp [runLoop, h]

theorem runLoop_append (l1 : List Input) : ∀ (st : State) (l2 : List Input),
    (runLoop st l1).cleanup = false →
    (runLoop st (l1 ++ l2)).state = (runLoop (runLoop st l1).state l2).state ∧
    (runLoop st (l1 ++ l2)).cleanup = (runLoop (runLoop st l1).state l2).cleanup := by
  induction l1 with
  | nil => intro st l2 _; simp [runLoop]
  | cons inp rest ih =>
    intro st l2 h
    by_cases hc : (loopBody st inp).cleanup = true
    · simp [runLoop, hc] at h
    · have hc2 : (loopBody st inp).cleanup = false := by simpa using hc
      obtain ⟨c1, c2, _⟩ := runLoop_cons st inp rest hc2
      obtain ⟨d1, d2, _⟩ := runLoop_cons st inp (rest ++ l2) hc2
      rw [c2] at h
      obtain ⟨i1, i2⟩ := ih (loopBody st inp).state l2 h
      rw [List.cons_append, d1, d2, c1, i1, i2]
      exact ⟨rfl, rfl⟩

theorem elapsedTimes_sum_cons (prev : Int) (inp : Input) (rest : List Input) :
    (elapsedTimes prev (inp :: rest)).sum
      = wrapInt32 (inp.read_ms - prev) + (elapsedTimes inp.read_ms rest).sum := by
  simp [elapsedTimes]

theorem elapsedTimes_take (l : List Input) : ∀ (prev : Int) (k : Nat),
    elapsedTimes prev (l.take k) = (elapsedTimes prev l).take k := by
  induction l with
  | nil => intro prev k; simp [elapsedTimes]
  | cons inp rest ih =>
    intro prev k
    cases k with
    | zero => simp [elapsedTimes]
    | succ k => simp [elapsedTimes, ih]

theorem activeNoDrain_cons (st : State) (inp : Input) (rest : List Input) :
    activeNoDrain st (inp :: rest) = true ↔
      st.ML_enabled = true ∧ drainDue st inp = false ∧
        activeNoDrain (loopBody st inp).state rest = true := by
  simp [activeNoDrain, and_assoc]

theorem activeNoDrain_take (l : List Input) : ∀ (st : State) (k : Nat),
    activeNoDrain st l = true → activeNoDrain st (l.take k) = true := by
  induction l with
  | nil => intro st k h; simpa using h
  | cons inp rest ih =>
    intro st k h
    cases k with
    | zero => simp [activeNoDrain]
    | succ k =>
      obtain ⟨h1, h2, h3⟩ := (activeNoDrain_cons st inp rest).mp h
      rw [List.take_succ_cons]
      exact (activeNoDrain_cons st inp _).mpr ⟨h1, h2, ih _ k h3⟩

theorem noBatchDue_cons (st : State) (inp : Input) (rest : List Input) :
    noBatchDue st (inp :: rest) = true ↔
      drainDue st inp = false ∧ noBatchDue (loopBody st inp).state rest = true := by
  simp [noBatchDue]

/-- A run of Active-mode iterations without batch, all yielding the current
label: every iteration takes the branch of lines 345-358. -/
theorem runLoop_extend (rest : List Input) : ∀ (st : State),
    (∀ x ∈ rest, classify x.scores = st.NN_State) →
    activeNoDrain st rest = true →
    inInt32 st.streak_duration →
    (runLoop st rest).cleanup = false ∧
    (runLoop st rest).trace = List.replicate rest.length (Access.rewrite (st.i - 1)) ∧
    (runLoop st rest).state.i = st.i ∧
    (runLoop st rest).state.ts_string = st.ts_string ∧
    (runLoop st rest).state.streak_duration
      = wrapInt32 (st.streak_duration + (elapsedTimes st.loopNew rest).sum) ∧
    (∀ a, a < slotAddr (st.i - 1) → (runLoop st rest).state.message a = st.message a) ∧
    (rest ≠ [] → ∀ fuel,
      (formatRecord st.ts_string DeviceID st.NN_State
        (runLoop st rest).state.streak_duration).length < fuel →
      (∀ c ∈ st.ts_string, c ≠ NUL) → (∀ c ∈ st.NN_State, c ≠ NUL) →
      loadCStr (runLoop st rest).state.message (slotAddr (st.i - 1)) fuel
        = formatRecord st.ts_string DeviceID st.NN_State
            (runLoop st rest).state.streak_duration) ∧
    (rest ≠ [] →
      ((st.NN_State = lblStoop ∧
          timeout_unused_ms < (runLoop st rest).state.streak_duration) →
        (runLoop st rest).state.ML_enabled = false ∧
        (runLoop st rest).state.NN_State = lblUnset) ∧
      (¬ (st.NN_State = lblStoop ∧
          timeout_unused_ms < (runLoop st rest).state.streak_duration) →
        (runLoop st rest).state.ML_enabled = true ∧
        (runLoop st rest).state.NN_State = st.NN_State)) := by
  induction rest with
  | nil =>
    intro st _ _ hr
    simp [runLoop, elapsedTimes, wrapInt32_of_inInt32 hr]
  | cons inp rest ih =>
    intro st hL hrun hr
    obtain ⟨hact, hnd, hrest⟩ := (activeNoDrain_cons st inp rest).mp hrun
    have hL0 : classify inp.scores = st.NN_State := hL inp (by simp)
    obtain ⟨e1, e2, e3, e4, e5, e6, _, e8, e9, e10⟩ := loopBody_extend st inp hact hnd hL0
    obtain ⟨c1, c2, c3⟩ := runLoop_cons st inp rest e1
    cases rest with
    | nil =>
      rw [runLoop_nil] at c1 c2 c3
      simp only [List.append_nil] at c3
      rw [c1, c2, c3]
      refine ⟨rfl, by simp [e2], e3, e4, ?_, ?_, ?_, ?_⟩
      · rw [e5, elapsedTimes_sum_cons]; simp [elapsedTimes]
      · intro a ha
        rw [e8, storeCStr_below _ _ _ _ ha]
      · intro _ fuel hfuel hts hst
        rw [e8]
        rw [e5] at hfuel ⊢
        exact loadCStr_storeCStr _ _ _ _ (formatRecord_noNUL _ _ _ _ hts hst) hfuel
      · intro _
        rw [e5]
        exact ⟨e9, e10⟩
    | cons inp2 rest2 =>
      have hact2 : (loopBody st inp).state.ML_enabled = true := by
        exact ((activeNoDrain_cons _ inp2 rest2).mp hrest).1
      have hlab : (loopBody st inp).state.NN_State = st.NN_State := by
        by_cases hto : st.NN_State = lblStoop ∧ timeout_unused_ms
            < wrapInt32 (st.streak_duration + wrapInt32 (inp.read_ms - st.loopNew))
        · have := (e9 hto).1
          rw [hact2] at this
          exact absurd this (by decide)
        · exact (e10 hto).2
      have hL2 : ∀ x ∈ inp2 :: rest2, classify x.scores = (loopBody st inp).state.NN_State := by
        intro x hx
        rw [hlab]
        exact hL x (List.mem_cons_of_mem _ hx)
      have hr2 : inInt32 (loopBody st inp).state.streak_duration := by
        rw [e5]; exact inInt32_wrapInt32 _
      obtain ⟨f1, f2, f3, f4, f5, f6, f7, f8⟩ := ih (loopBody st inp).state hL2 hrest hr2
      rw [c1, c2, c3]
      rw [e3] at f2 f3 f6 f7
      rw [e4] at f4 f7
      rw [hlab] at f7 f8
      refine ⟨f1, ?_, f3, f4, ?_, ?_, ?_, ?_⟩
      · rw [e2, f2]; simp [List.replicate_succ]
      · rw [f5, e5, e6, wrapInt32_add_wrapInt32, elapsedTimes_sum_cons st.loopNew inp,
          Int.add_assoc]
      · intro a ha
        rw [f6 a ha, e8, storeCStr_below _ _ _ _ ha]
      · intro _ fuel hfuel hts hst
        exact f7 (by simp) fuel hfuel hts hst
      · intro _
        exact f8 (by simp)

/-- State, trace and record after a run that opens a streak and extends it. -/
theorem runLoop_streak (st : State) (inp : Input) (rest : List Input) (L : List Char)
    (hL : ∀ x ∈ inp :: rest, classify x.scores = L)
    (hdiff : st.NN_State ≠ L)
    (hrun : activeNoDrain st (inp :: rest) = true) :
    (runLoop st (inp :: rest)).cleanup = false ∧
    (loopBody st inp).state.i = st.i + 1 ∧
    (runLoop st (inp :: rest)).state.i = st.i + 1 ∧
    (runLoop st (inp :: rest)).trace
      = Access.append st.i :: List.replicate rest.length (Access.rewrite st.i) ∧
    (runLoop st (inp :: rest)).state.streak_duration
      = wrapInt32 (elapsedTimes st.loopNew (inp :: rest)).sum ∧
    (runLoop st (inp :: rest)).state.ts_string = formatTimestamp inp.clock ∧
    slotText (runLoop st (inp :: rest)).state.message st.i
      = formatRecord (formatTimestamp inp.clock) DeviceID L
          (wrapInt32 (elapsedTimes st.loopNew (inp :: rest)).sum) ∧
    (∀ a, a < slotAddr st.i → (runLoop st (inp :: rest)).state.message a = st.message a) ∧
    (rest ≠ [] →
      ((L = lblStoop ∧ timeout_unused_ms < wrapInt32 (elapsedTimes st.loopNew (inp :: rest)).sum) →
        (runLoop st (inp :: rest)).state.ML_enabled = false ∧
        (runLoop st (inp :: rest)).state.NN_State = lblUnset) ∧
      (¬ (L = lblStoop ∧ timeout_unused_ms < wrapInt32 (elapsedTimes st.loopNew (inp :: rest)).sum) →
        (runLoop st (inp :: rest)).state.ML_enabled = true ∧
        (runLoop st (inp :: rest)).state.NN_State = L)) ∧
    (rest = [] → (runLoop st (inp :: rest)).state.ML_enabled = true ∧
        (runLoop st (inp :: rest)).state.NN_State = L) := by
  obtain ⟨hact, hnd, hrest⟩ := (activeNoDrain_cons st inp rest).mp hrun
  have hL0 : classify inp.scores = L := hL inp (by simp)
  have hLab : isClassLabel L := hL0 ▸ classify_isClassLabel inp.scores
  have hne : classify inp.scores ≠ st.NN_State := by
    rw [hL0]; exact fun h => hdiff h.symm
  obtain ⟨e1, e2, e3, e4, e5, e6, _, e8, e9, e10⟩ := loopBody_open st inp hact hnd hne
  obtain ⟨c1, c2, c3⟩ := runLoop_cons st inp rest e1
  rw [hL0] at e9 e10
  have hL2 : ∀ x ∈ rest, classify x.scores = (loopBody st inp).state.NN_State := by
    intro x hx
    rw [e9]
    exact hL x (List.mem_cons_of_mem _ hx)
  have hr2 : inInt32 (loopBody st inp).state.streak_duration := by
    rw [e5]; exact inInt32_wrapInt32 _
  obtain ⟨f1, f2, f3, f4, f5, f6, f7, f8⟩ := runLoop_extend rest (loopBody st inp).state hL2 hrest hr2
  have hi : (loopBody st inp).state.i - 1 = st.i := by rw [e3]; omega
  rw [hi] at f2 f6 f7
  rw [e4] at f4 f7
  rw [e9] at f7 f8
  have hsd : (runLoop (loopBody st inp).state rest).state.streak_duration
      = wrapInt32 (elapsedTimes st.loopNew (inp :: rest)).sum := by
    rw [f5, e5, e6, wrapInt32_add_wrapInt32, elapsedTimes_sum_cons, wrapInt32_add_wrapInt32]
  rw [hsd] at f7 f8
  rw [c1, c2, c3]
  refine ⟨f1, e3, by rw [f3, e3], by rw [e2, f2]; rfl, hsd, f4, ?_, ?_, f8, ?_⟩
  · by_cases hrest0 : rest = []
    · subst hrest0
      rw [runLoop_nil, e10]
      have hd : wrapInt32 (elapsedTimes st.loopNew [inp]).sum = wrapInt32 (inp.read_ms - st.loopNew) := by
        simp [elapsedTimes, wrapInt32_of_inInt32 (inInt32_wrapInt32 _)]
      rw [hd]
      exact loadCStr_storeCStr _ _ _ _
        (formatRecord_noNUL _ _ _ _ (formatTimestamp_noNUL _) (classLabel_noNUL hLab))
        (record_length_lt _ _ _ hLab (inInt32_wrapInt32 _))
    · exact f7 hrest0 96000 (record_length_lt _ _ _ hLab (inInt32_wrapInt32 _))
        (formatTimestamp_noNUL _) (classLabel_noNUL hLab)
  · intro a ha
    rw [f6 a ha, e10, storeCStr_below _ _ _ _ ha]
  · intro hrest0
    subst hrest0
    rw [runLoop_nil]
    exact ⟨e8, e9⟩

/-- While the accumulated duration of an extended streak stays within the idle
timeout at every iteration but the last, every iteration starts in Active mode. -/
theorem activeNoDrain_of_below (rest : List Input) : ∀ (st : State),
    st.ML_enabled = true →
    (∀ x ∈ rest, classify x.scores = st.NN_State) →
    noBatchDue st rest = true →
    (∀ k, 1 ≤ k → k < rest.length →
      ¬ (st.NN_State = lblStoop ∧ timeout_unused_ms
          < wrapInt32 (st.streak_duration + ((elapsedTimes st.loopNew rest).take k).sum))) →
    activeNoDrain st rest = true := by
  induction rest with
  | nil => intro st _ _ _ _; rfl
  | cons inp rest ih =>
    intro st hact hL hnd hbelow
    obtain ⟨hnd0, hnd1⟩ := (noBatchDue_cons st inp rest).mp hnd
    refine (activeNoDrain_cons st inp rest).mpr ⟨hact, hnd0, ?_⟩
    cases rest with
    | nil => rfl
    | cons inp2 rest2 =>
      obtain ⟨_, _, _, _, e5, e6, _, _, _, e10⟩ :=
        loopBody_extend st inp hact hnd0 (hL inp (by simp))
      have hno : ¬ (st.NN_State = lblStoop ∧ timeout_unused_ms
          < wrapInt32 (st.streak_duration + wrapInt32 (inp.read_ms - st.loopNew))) := by
        have := hbelow 1 (le_refl 1) (by simp)
        simpa [elapsedTimes] using this
      obtain ⟨hact1, hlab1⟩ := e10 hno
      apply ih (loopBody st inp).state hact1
      · intro x hx
        rw [hlab1]
        exact hL x (List.mem_cons_of_mem _ hx)
      · exact hnd1
      · intro k hk1 hk2
        have := hbelow (k + 1) (by omega) (by simp at hk2 ⊢; omega)
        rw [hlab1, e5, e6, wrapInt32_add_wrapInt32]
        have hsum : ((elapsedTimes st.loopNew (inp :: inp2 :: rest2)).take (k + 1)).sum
            = wrapInt32 (inp.read_ms - st.loopNew)
              + ((elapsedTimes inp.read_ms (inp2 :: rest2)).take k).sum := by
          simp [elapsedTimes]
        rw [hsum, ← Int.add_assoc] at this
        exact this

/-! ## Polls and the classification that follows them -/

theorem classLabel_ne_unused {L : List Char} (h : isClassLabel L) : L ≠ lblUnused := by
  rcases h with h | h | h | h | h <;> subst h <;> decide

/-- Lines 187-255 change neither the classifier switch, the timer reading of the
last iteration nor the message memory. -/
theorem batchSend_keeps (st : State) (inp : Input) :
    (batchSend st inp).state.ML_enabled = st.ML_enabled ∧
    (batchSend st inp).state.loopNew = st.loopNew ∧
    (batchSend st inp).state.message = st.message := by
  by_cases h : drainDue st inp = true
  · obtain ⟨_, _, _, b4, b5, b6, _⟩ := batchSend_due st inp h
    exact ⟨b5, b6, b4⟩
  · simp [batchSend, h]

/-- The label after lines 187-255 is the one before them or `x`. -/
theorem batchSend_label (st : State) (inp : Input) (hb : (batchSend st inp).cleanup = false) :
    (batchSend st inp).state.NN_State = st.NN_State ∨
    (batchSend st inp).state.NN_State = lblUnset := by
  by_cases h : drainDue st inp = true
  · exact Or.inr ((batchSend_due st inp h).2.2.2.2.2.2.2.2 hb)
  · simp [batchSend, h]

/-- An iteration that does not end in `cleanup`, runs the classifier and gets a
label other than the one left by lines 187-255 takes the branch of lines
360-379. -/
theorem loopBody_open_of_batch (st : State) (inp : Input)
    (hb : (batchSend st inp).cleanup = false)
    (hact : st.ML_enabled = true)
    (hne : classify inp.scores ≠ (batchSend st inp).state.NN_State) :
    (loopBody st inp).cleanup = false ∧
    (loopBody st inp).state.NN_State = classify inp.scores ∧
    (loopBody st inp).trace
      = (batchSend st inp).trace ++ [Access.append (batchSend st inp).state.i] ∧
    (loopBody st inp).state.i = (batchSend st inp).state.i + 1 ∧
    (loopBody st inp).state.ts_string = formatTimestamp inp.clock ∧
    (loopBody st inp).state.streak_duration = wrapInt32 (inp.read_ms - st.loopNew) ∧
    slotText (loopBody st inp).state.message (batchSend st inp).state.i
      = formatRecord (formatTimestamp inp.clock) DeviceID (classify inp.scores)
          (wrapInt32 (inp.read_ms - st.loopNew)) := by
  obtain ⟨k1, k2, k3⟩ := batchSend_keeps st inp
  rw [hact] at k1
  have hlab := classify_isClassLabel inp.scores
  have hmsg : (loopBody st inp).state.message
      = storeCStr st.message (slotAddr (batchSend st inp).state.i)
          (formatRecord (formatTimestamp inp.clock) DeviceID (classify inp.scores)
            (wrapInt32 (inp.read_ms - st.loopNew))) := by
    simp [loopBody, hb, classifyOrPoll, k1, measureDuration, streakUpdate, hne, k2, k3]
  refine ⟨?_, ?_, ?_, ?_, ?_, ?_, ?_⟩
  · simp [loopBody, hb]
  · simp [loopBody, hb, classifyOrPoll, k1, measureDuration, streakUpdate, hne]
  · simp [loopBody, hb, classifyOrPoll, k1, measureDuration, streakUpdate, hne]
  · simp [loopBody, hb, classifyOrPoll, k1, measureDuration, streakUpdate, hne]
  · simp [loopBody, hb, classifyOrPoll, k1, measureDuration, streakUpdate, hne]
  · simp [loopBody, hb, classifyOrPoll, k1, measureDuration, streakUpdate, hne, k2]
  · rw [hmsg]
    exact loadCStr_storeCStr _ _ _ _
      (formatRecord_noNUL _ _ _ _ (formatTimestamp_noNUL _) (classLabel_noNUL hlab))
      (record_length_lt _ _ _ hlab (inInt32_wrapInt32 _))

/-- An iteration that starts with the classifier disabled and does not end in
`cleanup` leaves the label `Unused`. -/
theorem loopBody_poll_label (st : State) (inp : Input)
    (hlow : st.ML_enabled = false)
    (hgo : (loopBody st inp).cleanup = false) :
    (loopBody st inp).state.NN_State = lblUnused := by
  have hb : (batchSend st inp).cleanup = false := by
    by_contra hc
    simp [loopBody, hc] at hgo
  have hml : (batchSend st inp).state.ML_enabled = false := by
    rw [(batchSend_keeps st inp).1, hlow]
  have hus : lblUnused ≠ lblStoop := by decide
  by_cases hg : gyroOverLimit inp = true
  · by_cases heq : lblUnused = (batchSend st inp).state.NN_State
    · simp [loopBody, hb, classifyOrPoll, hml, hg, measureDuration, streakUpdate, ← heq, hus]
    · simp [loopBody, hb, classifyOrPoll, hml, hg, measureDuration, streakUpdate, heq]
  · by_cases heq : lblUnused = (batchSend st inp).state.NN_State
    · simp [loopBody, hb, classifyOrPoll, hml, hg, measureDuration, streakUpdate, ← heq, hus]
    · simp [loopBody, hb, classifyOrPoll, hml, hg, measureDuration, streakUpdate, heq]

theorem allPolls_cons (st : State) (inp : Input) (rest : List Input) :
    allPolls st (inp :: rest) = true ↔
      st.ML_enabled = false ∧ (loopBody st inp).cleanup = false ∧
        allPolls (loopBody st inp).state rest = true := by
  simp [allPolls, and_assoc]

/-- A run of one or more polls ends, without `cleanup`, with the label
`Unused`. -/
theorem runLoop_allPolls (polls : List Input) : ∀ (st : State) (inp : Input),
    allPolls st (inp :: polls) = true →
    (runLoop st (inp :: polls)).cleanup = false ∧
    (runLoop st (inp :: polls)).state.NN_State = lblUnused := by
  induction polls with
  | nil =>
    intro st inp h
    obtain ⟨h1, h2, _⟩ := (allPolls_cons st inp []).mp h
    obtain ⟨c1, c2, _⟩ := runLoop_cons st inp [] h2
    rw [c1, c2, runLoop_nil]
    exact ⟨rfl, loopBody_poll_label st inp h1 h2⟩
  | cons p rest ih =>
    intro st inp h
    obtain ⟨_, h2, h3⟩ := (allPolls_cons st inp (p :: rest)).mp h
    obtain ⟨c1, c2, _⟩ := runLoop_cons st inp (p :: rest) h2
    rw [c1, c2]
    exact ih (loopBody st inp).state p h3

/-! ## Cursor bounds -/

/-- After lines 187-255 the cursor is at most 1198 unless control went to
`cleanup`, and every slot read by the send loop is a slot of `message`. -/
theorem batchSend_bounds (st : State) (inp : Input) (hinv : cursorInv st) :
    (∀ a ∈ (batchSend st inp).trace, a.inRange) ∧
    ((batchSend st inp).cleanup = false →
      0 ≤ (batchSend st inp).state.i ∧
      (batchSend st inp).state.i ≤ message_buf_size - 2 ∧
      ((batchSend st inp).state.i = 0 →
        (batchSend st inp).state.NN_State = lblInitial ∨
        (batchSend st inp).state.NN_State = lblUnset)) := by
  obtain ⟨h0, h1, h2⟩ := hinv
  by_cases hd : drainDue st inp = true
  · obtain ⟨b1, b2, b3, _, _, _, _, _, b9⟩ := batchSend_due st inp hd
    have hi : st.i = ((st.i.toNat : Nat) : Int) := by omega
    obtain ⟨s1, s2, s3, s4⟩ := sendBatch_bounds inp.send st.i.toNat
    rw [← hi] at s1 s2 s3 s4
    refine ⟨?_, ?_⟩
    · intro a ha
      rw [b3] at ha
      obtain ⟨m, hm, rfl⟩ := List.mem_map.mp ha
      have := s1 m hm
      exact ⟨this.1, by simp only [Access.slot]; omega⟩
    · intro hc
      rw [b2]
      rw [b1] at hc
      exact ⟨s2, s4 hc, fun _ => Or.inr (b9 (by rw [b1]; exact hc))⟩
  · have hb := batchSend_not_due st inp (by simpa using hd)
    rw [hb]
    refine ⟨by simp, fun _ => ⟨h0, ?_, h2⟩⟩
    have hd2 : drainDue st inp = false := by simpa using hd
    simp only [drainDue, Bool.and_eq_false_iff, Bool.or_eq_false_iff, decide_eq_false_iff_not]
      at hd2
    simp only [message_buf_size] at hd2 h1 ⊢
    omega

/-- Lines 257-380 started with a cursor of at most 1198 that is 0 only if the
label is the initial one or `x`: the slot written is a slot of `message` and
the invariant holds at the next evaluation of the loop condition. -/
theorem tick_bounds (st : State) (inp : Input)
    (h0 : 0 ≤ st.i) (h1 : st.i ≤ message_buf_size - 2)
    (h2 : st.i = 0 → st.NN_State = lblInitial ∨ st.NN_State = lblUnset) :
    (∀ a ∈ (streakUpdate (measureDuration (classifyOrPoll st inp) inp) inp).2, a.inRange) ∧
    cursorInv (streakUpdate (measureDuration (classifyOrPoll st inp) inp) inp).1 := by
  have hlab := classify_isClassLabel inp.scores
  have hc1 := classLabel_ne_unset hlab
  have hc2 := classLabel_ne_initial hlab
  have hu1 : lblUnused ≠ lblUnset := by decide
  have hu2 : lblUnused ≠ lblInitial := by decide
  have hx1 : lblUnset ≠ lblInitial := by decide
  simp only [message_buf_size] at h1
  by_cases hact : st.ML_enabled = true
  · by_cases heq : classify inp.scores = st.NN_State
    · have hpos : 1 ≤ st.i := by
        by_contra hz
        have hz0 : st.i = 0 := by omega
        rcases h2 hz0 with h | h
        · exact hc2 (heq.trans h)
        · exact hc1 (heq.trans h)
      by_cases hto : st.NN_State = lblStoop ∧ timeout_unused_ms
          < wrapInt32 (st.streak_duration + wrapInt32 (inp.read_ms - st.loopNew))
      · simp [classifyOrPoll, hact, measureDuration, streakUpdate, heq, hto,
          cursorInv, Access.inRange, Access.slot, message_buf_size]
        omega
      · simp [classifyOrPoll, hact, measureDuration, streakUpdate, heq, hto,
          cursorInv, Access.inRange, Access.slot, message_buf_size]
        omega
    · simp [classifyOrPoll, hact, measureDuration, streakUpdate, heq,
        cursorInv, Access.inRange, Access.slot, message_buf_size]
      omega
  · have hus : lblUnused ≠ lblStoop := by decide
    by_cases heq : lblUnused = st.NN_State
    · have hpos : 1 ≤ st.i := by
        by_contra hz
        have hz0 : st.i = 0 := by omega
        rcases h2 hz0 with h | h
        · exact hu2 (heq.trans h)
        · exact hu1 (heq.trans h)
      by_cases hg : gyroOverLimit inp = true
      · simp [classifyOrPoll, hact, measureDuration, streakUpdate, ← heq, hg, hus,
          cursorInv, Access.inRange, Access.slot, message_buf_size]
        omega
      · simp [classifyOrPoll, hact, measureDuration, streakUpdate, ← heq, hg, hus,
          cursorInv, Access.inRange, Access.slot, message_buf_size]
        omega
    · by_cases hg : gyroOverLimit inp = true
      · simp [classifyOrPoll, hact, measureDuration, streakUpdate, heq, hg,
          cursorInv, Access.inRange, Access.slot, message_buf_size]
        omega
      · simp [classifyOrPoll, hact, measureDuration, streakUpdate, heq, hg,
          cursorInv, Access.inRange, Access.slot, message_buf_size]
        omega

/-- One iteration started in a state that satisfies `cursorInv` uses only slots
of `message` and, unless it ends in `cleanup`, re-establishes `cursorInv`. -/
theorem loopBody_bounds (st : State) (inp : Input) (hinv : cursorInv st) :
    (∀ a ∈ (loopBody st inp).trace, a.inRange) ∧
    ((loopBody st inp).cleanup = false → cursorInv (loopBody st inp).state) := by
  obtain ⟨b1, b2⟩ := batchSend_bounds st inp hinv
  by_cases hc : (batchSend st inp).cleanup = true
  · simp only [loopBody, hc, if_true]
    exact ⟨b1, fun h => absurd h (by decide)⟩
  · have hc2 : (batchSend st inp).cleanup = false := by simpa using hc
    obtain ⟨p0, p1, p2⟩ := b2 hc2
    obtain ⟨t1, t2⟩ := tick_bounds (batchSend st inp).state inp p0 p1 p2
    simp only [loopBody, hc2]
    refine ⟨?_, fun _ => t2⟩
    intro a ha
    rcases List.mem_append.mp ha with h | h
    · exact b1 a h
    · exact t1 a h

theorem cursorInv_initialState : cursorInv initialState := by
  simp [cursorInv, initialState, message_buf_size]

theorem runLoop_bounds (inputs : List Input) : ∀ (st : State), cursorInv st →
    (∀ a ∈ (runLoop st inputs).trace, a.inRange) ∧
    ((runLoop st inputs).cleanup = false → cursorInv (runLoop st inputs).state) := by
  induction inputs with
  | nil => intro st h; simp [runLoop, h]
  | cons inp rest ih =>
    intro st hinv
    obtain ⟨l1, l2⟩ := loopBody_bounds st inp hinv
    by_cases hc : (loopBody st inp).cleanup = true
    · simp only [runLoop, hc, if_true]
      exact ⟨l1, fun h => absurd h (by decide)⟩
    · have hc2 : (loopBody st inp).cleanup = false := by simpa using hc
      obtain ⟨c1, c2, c3⟩ := runLoop_cons st inp rest hc2
      obtain ⟨r1, r2⟩ := ih (loopBody st inp).state (l2 hc2)
      rw [c1, c2, c3]
      refine ⟨?_, r2⟩
      intro a ha
      rcases List.mem_append.mp ha with h | h
      · exact l1 a h
      · exact r1 a h

/-- In every state the loop reaches from the initial state the cursor is
between 0 and `message_buf_size`. -/
theorem cursor_le_capacity (inputs : List Input)
    (h : (runLoop initialState inputs).cleanup = false) :
    0 ≤ (runLoop initialState inputs).state.i ∧
    (runLoop initialState inputs).state.i ≤ message_buf_size := by
  have hinv := (runLoop_bounds inputs initialState cursorInv_initialState).2 h
  exact ⟨hinv.1, hinv.2.1⟩

/-- While the cursor is at most `message_buf_size - 1` when a batch starts, the
batch ends in `cleanup` exactly when it starts at `message_buf_size - 1` and its
first record, the one of slot `i-1`, is not sent. -/
theorem drain_fatal_iff_of_cursor_le (st : State) (inp : Input)
    (hdue : drainDue st inp = true) (hle : st.i ≤ message_buf_size - 1) :
    (batchSend st inp).cleanup = true ↔
      (st.i = message_buf_size - 1 ∧ inp.send (st.i - 1) ≠ SendOutcome.sent) := by
  have hpos := drainDue_pos st inp hdue
  rw [(batchSend_due st inp hdue).1]
  obtain ⟨n, hn⟩ : ∃ n : Nat, st.i.toNat = n + 1 := ⟨st.i.toNat - 1, by omega⟩
  have hi : st.i = (n : Int) + 1 := by omega
  have hn1 : st.i - 1 = (n : Int) := by omega
  rw [hn, hn1]
  have hrec : (n : Int) ≤ message_buf_size - 2 := by omega
  have hnc := sendBatch_no_cleanup inp.send n hrec
  by_cases hfull : st.i < message_buf_size - 1
  · have hne : st.i ≠ message_buf_size - 1 := by omega
    cases hs : inp.send (n : Int) <;> simp [sendBatch, hs, hfull, hnc, hne]
  · have heq : st.i = message_buf_size - 1 := by omega
    cases hs : inp.send (n : Int) <;> simp [sendBatch, hs, hfull, hnc, heq]

/-! ## C1: drain that fails at a record -/

/-- C1 (drain that fails at record `m`).  A batch is sent from a state with
cursor `i0`, the records at slots `i0-1` down to `m+1` are created and submitted,
the record at slot `m` (`0 ≤ m ≤ i0-1`) fails to be created or submitted, and
control does not go to `cleanup`: after the batch the cursor is `m+1` and the
message memory is the one before the batch, so slots `0..m` hold what they
held. -/
theorem drain_failure_keeps_remainder (st : State) (inp : Input) (m : Nat)
    (hdue : drainDue st inp = true)
    (hm : (m : Int) ≤ st.i - 1)
    (hsent : ∀ j : Int, (m : Int) < j → j < st.i → inp.send j = SendOutcome.sent)
    (hfail : inp.send (m : Int) ≠ SendOutcome.sent)
    (hgo : (batchSend st inp).cleanup = false) :
    (batchSend st inp).state.i = (m : Int) + 1 ∧
    (∀ k : Int, 0 ≤ k → k ≤ (m : Int) →
      slotBytes (batchSend st inp).state.message k = slotBytes st.message k) ∧
    (batchSend st inp).state.message = st.message ∧
    (m : Int) + 1 < message_buf_size - 1 := by
  have hmn : m < st.i.toNat := by omega
  have hsent2 : ∀ j : Nat, m < j → j < st.i.toNat → inp.send (j : Int) = SendOutcome.sent :=
    fun j h1 h2 => hsent j (by omega) (by omega)
  obtain ⟨h1, h2⟩ := sendBatch_fail_at inp.send m st.i.toNat st.i hmn hsent2 hfail
  have hi : (if st.i.toNat = m + 1 then st.i else (m : Int) + 1) = (m : Int) + 1 := by
    split_ifs with h
    · omega
    · rfl
  rw [hi] at h1 h2
  refine ⟨?_, ?_, batchSend_message st inp, ?_⟩
  · rw [(batchSend_due st inp hdue).2.1]
    exact h1
  · intro k _ _
    rw [batchSend_message]
  · rw [(batchSend_due st inp hdue).1, h2] at hgo
    exact not_not.mp (of_decide_eq_false hgo)

/-- Instance of `drain_failure_keeps_remainder` (C1): after `threeTicks` the
cursor is 3; a batch in which slot 2 is sent and slot 1 is refused leaves the
cursor at 2 and the message memory as it was. -/
theorem drain_failure_keeps_remainder_witness :
    drainDue (runLoop initialState threeTicks).state failAtSlotOne = true ∧
    ((1 : Nat) : Int) ≤ (runLoop initialState threeTicks).state.i - 1 ∧
    failAtSlotOne.send ((1 : Nat) : Int) ≠ SendOutcome.sent ∧
    (batchSend (runLoop initialState threeTicks).state failAtSlotOne).cleanup = false ∧
    (batchSend (runLoop initialState threeTicks).state failAtSlotOne).state.i
      = ((1 : Nat) : Int) + 1 ∧
    (batchSend (runLoop initialState threeTicks).state failAtSlotOne).state.message
      = (runLoop initialState threeTicks).state.message :=
  have h := drain_failure_keeps_remainder (runLoop initialState threeTicks).state failAtSlotOne 1
    (by decide) (by decide)
    (fun j h1 h2 => by
      have hi : (runLoop initialState threeTicks).state.i = 3 := by decide
      have hj : j = 2 := by rw [hi] at h2; omega
      subst hj
      rfl)
    (by decide) (by decide)
  ⟨by decide, by decide, by decide, by decide, h.1, h.2.2.1⟩

/-! ## C2: fully successful drain -/

/-- C2, counterexample.  After `lateSleepTicks` the classifier is disabled and the
cursor is 1.  The batch of the next iteration sends every record and leaves the
cursor at 0 and the label `x`; that iteration and the following one are polls
(the second one wakes the device), and the next classification, a `Stand`,
writes its record into slot 2 and sets the cursor to 3. -/
theorem full_drain_in_low_power_counterexample :
    drainDue (runLoop initialState lateSleepTicks).state duePoll = true ∧
    1 ≤ (runLoop initialState lateSleepTicks).state.i ∧
    (batchSend (runLoop initialState lateSleepTicks).state duePoll).cleanup = false ∧
    (batchSend (runLoop initialState lateSleepTicks).state duePoll).state.i = 0 ∧
    (batchSend (runLoop initialState lateSleepTicks).state duePoll).state.NN_State = lblUnset ∧
    (runLoop initialState lateSleepTicks).state.ML_enabled = false ∧
    (runLoop initialState (lateSleepTicks ++ [duePoll])).state.ML_enabled = false ∧
    (runLoop initialState (lateSleepTicks ++ [duePoll, wakePoll 61001 61010])).state.ML_enabled
      = true ∧
    (runLoop initialState (lateSleepTicks ++ [duePoll, wakePoll 61001 61010])).cleanup = false ∧
    (loopBody (runLoop initialState (lateSleepTicks ++ [duePoll, wakePoll 61001 61010])).state
      (tickAt scoresStand 61010 62010)).trace = [Access.append 2] ∧
    (loopBody (runLoop initialState (lateSleepTicks ++ [duePoll, wakePoll 61001 61010])).state
      (tickAt scoresStand 61010 62010)).state.i = 3 := by
  decide

/-- C2 as amended (fully successful drain).  A batch is sent (so the cursor is
at least 1) and every record from slot `i0-1` down to slot 0 is created and
submitted: after the batch the cursor is 0 and the label is `x`, and the next
classification, whatever label it yields, takes the branch of lines 360-379,
with a fresh timestamp and a duration equal to the elapsed time of its
iteration.  When the classifier is enabled that classification is the one of
the same iteration, its record is written into slot 0 and the cursor is set to
1.  When the classifier is disabled it is the classification of the iteration
`c` that follows the polls up to the one that enables the classifier, among
them the poll of the iteration of the batch; its record is written into the
slot at the cursor of that iteration, and the cursor moves up by one. -/
theorem full_drain_opens_event (st : State) (inp : Input)
    (hdue : drainDue st inp = true)
    (hall : ∀ j : Int, 0 ≤ j → j < st.i → inp.send j = SendOutcome.sent) :
    ((batchSend st inp).cleanup = false ∧
      (batchSend st inp).state.i = 0 ∧
      (batchSend st inp).state.NN_State = lblUnset) ∧
    (st.ML_enabled = true →
      (loopBody st inp).cleanup = false ∧
      isClassLabel (classify inp.scores) ∧
      (loopBody st inp).state.NN_State = classify inp.scores ∧
      (loopBody st inp).trace
        = (batchSend st inp).trace ++ [Access.append 0] ∧
      (loopBody st inp).state.i = 1 ∧
      (loopBody st inp).state.ts_string = formatTimestamp inp.clock ∧
      (loopBody st inp).state.streak_duration = wrapInt32 (inp.read_ms - st.loopNew) ∧
      slotText (loopBody st inp).state.message 0
        = formatRecord (formatTimestamp inp.clock) DeviceID (classify inp.scores)
            (wrapInt32 (inp.read_ms - st.loopNew))) ∧
    (∀ (polls : List Input) (c : Input),
      allPolls st (inp :: polls) = true →
      (runLoop st (inp :: polls)).state.ML_enabled = true →
      (loopBody (runLoop st (inp :: polls)).state c).cleanup = false →
      isClassLabel (classify c.scores) ∧
      (loopBody (runLoop st (inp :: polls)).state c).state.NN_State = classify c.scores ∧
      (loopBody (runLoop st (inp :: polls)).state c).trace
        = (batchSend (runLoop st (inp :: polls)).state c).trace
            ++ [Access.append (batchSend (runLoop st (inp :: polls)).state c).state.i] ∧
      (loopBody (runLoop st (inp :: polls)).state c).state.i
        = (batchSend (runLoop st (inp :: polls)).state c).state.i + 1 ∧
      (loopBody (runLoop st (inp :: polls)).state c).state.ts_string
        = formatTimestamp c.clock ∧
      (loopBody (runLoop st (inp :: polls)).state c).state.streak_duration
        = wrapInt32 (c.read_ms - (runLoop st (inp :: polls)).state.loopNew) ∧
      slotText (loopBody (runLoop st (inp :: polls)).state c).state.message
          (batchSend (runLoop st (inp :: polls)).state c).state.i
        = formatRecord (formatTimestamp c.clock) DeviceID (classify c.scores)
            (wrapInt32 (c.read_ms - (runLoop st (inp :: polls)).state.loopNew))) := by
  have hpos := drainDue_pos st inp hdue
  obtain ⟨h1, h2⟩ := sendBatch_all_sent inp.send st.i.toNat st.i
    (fun j hj => hall j (by omega) (by omega))
  have hn : ¬ (st.i.toNat = 0) := by omega
  rw [if_neg hn] at h1
  obtain ⟨b1, b2, _, _, _, _, _, _, b9⟩ := batchSend_due st inp hdue
  rw [h2] at b1
  rw [h1] at b2
  have b9 := b9 b1
  refine ⟨⟨b1, b2, b9⟩, ?_, ?_⟩
  · intro hact
    have hlab := classify_isClassLabel inp.scores
    have hne : classify inp.scores ≠ (batchSend st inp).state.NN_State := by
      rw [b9]; exact classLabel_ne_unset hlab
    obtain ⟨o1, o2, o3, o4, o5, o6, o7⟩ := loopBody_open_of_batch st inp b1 hact hne
    rw [b2] at o3 o4 o7
    exact ⟨o1, hlab, o2, o3, o4, o5, o6, o7⟩
  · intro polls c hpolls hact hgo
    obtain ⟨_, r2⟩ := runLoop_allPolls polls st inp hpolls
    have hlab := classify_isClassLabel c.scores
    have hb : (batchSend (runLoop st (inp :: polls)).state c).cleanup = false := by
      by_contra hc
      simp [loopBody, hc] at hgo
    have hne : classify c.scores ≠ (batchSend (runLoop st (inp :: polls)).state c).state.NN_State := by
      rcases batchSend_label (runLoop st (inp :: polls)).state c hb with h | h
      · rw [h, r2]; exact classLabel_ne_unused hlab
      · rw [h]; exact classLabel_ne_unset hlab
    obtain ⟨_, o2, o3, o4, o5, o6, o7⟩ :=
      loopBody_open_of_batch (runLoop st (inp :: polls)).state c hb hact hne
    exact ⟨hlab, o2, o3, o4, o5, o6, o7⟩

/-- Instance of `full_drain_opens_event` (C2), in both modes.  After
`longStandTicks` (cursor 1, Active mode) the batch is due and sends the one
record; the `Walk` classification of the same iteration is recorded in slot 0
with its own timestamp and its 500 ms, and the cursor is 1.  After
`lateSleepTicks` (cursor 1, classifier disabled) the batch is due in the
iteration of `duePoll` and sends the one record; the next poll enables the
classifier, and the `Stand` classification that follows is recorded with its own
timestamp and its 1000 ms, in slot 2. -/
theorem full_drain_opens_event_witness :
    (drainDue (runLoop initialState longStandTicks).state dueWalk = true ∧
      (runLoop initialState longStandTicks).state.ML_enabled = true ∧
      (loopBody (runLoop initialState longStandTicks).state dueWalk).state.i = 1 ∧
      (loopBody (runLoop initialState longStandTicks).state dueWalk).trace
        = (batchSend (runLoop initialState longStandTicks).state dueWalk).trace
            ++ [Access.append 0] ∧
      slotText (loopBody (runLoop initialState longStandTicks).state dueWalk).state.message 0
        = formatRecord (formatTimestamp dueWalk.clock) DeviceID (classify dueWalk.scores)
            (wrapInt32
              (dueWalk.read_ms - (runLoop initialState longStandTicks).state.loopNew))) ∧
    (drainDue (runLoop initialState lateSleepTicks).state duePoll = true ∧
      allPolls (runLoop initialState lateSleepTicks).state [duePoll, wakePoll 61001 61010]
        = true ∧
      (loopBody
          (runLoop (runLoop initialState lateSleepTicks).state
            [duePoll, wakePoll 61001 61010]).state
          (tickAt scoresStand 61010 62010)).state.ts_string
        = formatTimestamp (tickAt scoresStand 61010 62010).clock ∧
      (loopBody
          (runLoop (runLoop initialState lateSleepTicks).state
            [duePoll, wakePoll 61001 61010]).state
          (tickAt scoresStand 61010 62010)).state.streak_duration
        = wrapInt32 ((tickAt scoresStand 61010 62010).read_ms
            - (runLoop (runLoop initialState lateSleepTicks).state
                [duePoll, wakePoll 61001 61010]).state.loopNew)) :=
  have h := full_drain_opens_event (runLoop initialState longStandTicks).state dueWalk
    (by decide) (fun _ _ _ => rfl)
  have h2 := h.2.1 (by decide)
  have g := full_drain_opens_event (runLoop initialState lateSleepTicks).state duePoll
    (by decide) (fun _ _ _ => rfl)
  have g2 := g.2.2 [wakePoll 61001 61010] (tickAt scoresStand 61010 62010)
    (by decide) (by decide) (by decide)
  ⟨⟨by decide, by decide, h2.2.2.2.2.1, h2.2.2.2.1, h2.2.2.2.2.2.2.2⟩,
    ⟨by decide, by decide, g2.2.2.2.2.1, g2.2.2.2.2.2.1⟩⟩

/-! ## C3: streak aggregation -/

/-- C3 (streak aggregation).  A run of `N = rest.length + 1` consecutive
Active-mode iterations without batch, all classified as the same label `L`,
started while the current label differs from `L`: the cursor grows by one at the
first iteration and stays there, the only slot written is the one at the old
cursor (appended once, then rewritten), that slot finally holds the record with
the timestamp of the first iteration, label `L` and the sum of the elapsed times
(no overflow of `int` assumed), and every slot below it keeps its bytes. -/
theorem streak_aggregation (st : State) (inp : Input) (rest : List Input) (L : List Char)
    (hL : ∀ x ∈ inp :: rest, classify x.scores = L)
    (hdiff : st.NN_State ≠ L)
    (hrun : activeNoDrain st (inp :: rest) = true)
    (hsum : inInt32 (elapsedTimes st.loopNew (inp :: rest)).sum) :
    (runLoop st (inp :: rest)).cleanup = false ∧
    (loopBody st inp).state.i = st.i + 1 ∧
    (runLoop st (inp :: rest)).state.i = st.i + 1 ∧
    (runLoop st (inp :: rest)).trace
      = Access.append st.i :: List.replicate rest.length (Access.rewrite st.i) ∧
    slotText (runLoop st (inp :: rest)).state.message st.i
      = formatRecord (formatTimestamp inp.clock) DeviceID L
          (elapsedTimes st.loopNew (inp :: rest)).sum ∧
    (∀ j, j < st.i →
      slotBytes (runLoop st (inp :: rest)).state.message j = slotBytes st.message j) := by
  obtain ⟨g1, g2, g3, g4, _, _, g7, g8, _, _⟩ := runLoop_streak st inp rest L hL hdiff hrun
  rw [wrapInt32_of_inInt32 hsum] at g7
  refine ⟨g1, g2, g3, g4, g7, ?_⟩
  intro j hj
  apply slotBytes_congr
  intro a ha
  apply g8
  unfold slotAddr slot_size at ha ⊢
  omega

/-- Instance of `streak_aggregation` (C3): two `Stand` classifications of 500 ms
each from the initial state use slot 0 only and leave there the record
`Stand` with duration 1000. -/
theorem streak_aggregation_witness :
    activeNoDrain initialState standTicks = true ∧
    initialState.NN_State ≠ lblStand ∧
    (elapsedTimes initialState.loopNew standTicks).sum = 1000 ∧
    (runLoop initialState standTicks).state.i = initialState.i + 1 ∧
    (runLoop initialState standTicks).trace
      = [Access.append initialState.i, Access.rewrite initialState.i] ∧
    slotText (runLoop initialState standTicks).state.message initialState.i
      = formatRecord (formatTimestamp exampleClock) DeviceID lblStand
          (elapsedTimes initialState.loopNew standTicks).sum :=
  have h := streak_aggregation initialState (tickAt scoresStand 0 500)
    [tickAt scoresStand 500 1000] lblStand (by decide) (by decide) (by decide) (by decide)
  ⟨by decide, by decide, by decide, h.2.2.1, h.2.2.2.1, h.2.2.2.2.1⟩

/-! ## C4: idle timeout -/

/-- C4, counterexample.  A first `Stoop` classification that lasts 40000 ms
opens the streak with an accumulated duration above `timeout_unused_ms`, and
the classifier stays enabled with label `Stoop`; it is disabled by the next
`Stoop` classification. -/
theorem idle_timeout_opening_tick_counterexample :
    classify longStoop.scores = lblStoop ∧
    drainDue initialState longStoop = false ∧
    timeout_unused_ms < (loopBody initialState longStoop).state.streak_duration ∧
    (loopBody initialState longStoop).state.ML_enabled = true ∧
    (loopBody initialState longStoop).state.NN_State = lblStoop ∧
    (runLoop initialState [longStoop, tickAt scoresStoop 40000 40500]).state.ML_enabled
      = false := by
  decide

/-- C4 as amended (idle timeout).  A run of `N = rest.length + 1 ≥ 2`
consecutive classifications of `Stoop` without batch, started in Active mode
while the current label is not `Stoop`.  If the accumulated duration exceeds
`timeout_unused_ms` after the last iteration and did not exceed it after any
earlier iteration other than the first (the one that opens the streak), then
the mode is still Active and the label still `Stoop` after every earlier
iteration, the first included, and after the last iteration the classifier is
disabled, the label is `x` and the record in the slot of the streak carries the
duration reached at that iteration (no overflow of `int` assumed). -/
theorem idle_timeout (st : State) (inp : Input) (rest : List Input)
    (hact : st.ML_enabled = true) (hfresh : st.NN_State ≠ lblStoop)
    (hL : ∀ x ∈ inp :: rest, classify x.scores = lblStoop)
    (hnd : noBatchDue st (inp :: rest) = true)
    (hrange : ∀ k, k ≤ rest.length + 1 → inInt32 (streakSum st (inp :: rest) k))
    (hN : 1 ≤ rest.length)
    (hcross : timeout_unused_ms < streakSum st (inp :: rest) (rest.length + 1))
    (hearlier : ∀ k, 2 ≤ k → k ≤ rest.length →
      streakSum st (inp :: rest) k ≤ timeout_unused_ms) :
    (∀ k, 1 ≤ k → k ≤ rest.length →
      (runLoop st ((inp :: rest).take k)).cleanup = false ∧
      (runLoop st ((inp :: rest).take k)).state.ML_enabled = true ∧
      (runLoop st ((inp :: rest).take k)).state.NN_State = lblStoop) ∧
    (runLoop st (inp :: rest)).cleanup = false ∧
    (runLoop st (inp :: rest)).state.ML_enabled = false ∧
    (runLoop st (inp :: rest)).state.NN_State = lblUnset ∧
    (runLoop st (inp :: rest)).state.i = st.i + 1 ∧
    (runLoop st (inp :: rest)).state.streak_duration
      = streakSum st (inp :: rest) (rest.length + 1) ∧
    slotText (runLoop st (inp :: rest)).state.message st.i
      = formatRecord (formatTimestamp inp.clock) DeviceID lblStoop
          (streakSum st (inp :: rest) (rest.length + 1)) ∧
    (∀ a, a < slotAddr st.i → (runLoop st (inp :: rest)).state.message a = st.message a) := by
  obtain ⟨hnd0, hnd1⟩ := (noBatchDue_cons st inp rest).mp hnd
  have hL0 : classify inp.scores = lblStoop := hL inp (by simp)
  have hne : classify inp.scores ≠ st.NN_State := by
    rw [hL0]; exact fun h => hfresh h.symm
  obtain ⟨e1, _, _, _, e5, e6, _, e8, e9, _⟩ := loopBody_open st inp hact hnd0 hne
  rw [hL0] at e9
  have hsumk : ∀ k, streakSum st (inp :: rest) (k + 1)
      = wrapInt32 (inp.read_ms - st.loopNew) + ((elapsedTimes inp.read_ms rest).take k).sum := by
    intro k
    simp [streakSum, elapsedTimes]
  have hfull : streakSum st (inp :: rest) (rest.length + 1)
      = (elapsedTimes st.loopNew (inp :: rest)).sum := by
    have hlen : ∀ (l : List Input) (p : Int), (elapsedTimes p l).length = l.length := by
      intro l
      induction l with
      | nil => intro p; rfl
      | cons a l ih => intro p; simp [elapsedTimes, ih]
    unfold streakSum
    rw [List.take_of_length_le]
    rw [hlen]; simp
  -- iterations after the first all start in Active mode
  have hrun1 : activeNoDrain (loopBody st inp).state rest = true := by
    apply activeNoDrain_of_below rest _ e8
    · intro x hx; rw [e9]; exact hL x (List.mem_cons_of_mem _ hx)
    · exact hnd1
    · intro k hk1 hk2
      rw [e5, e6, ← hsumk k, wrapInt32_of_inInt32 (hrange (k + 1) (by omega))]
      intro hc
      have := hearlier (k + 1) (by omega) (by omega)
      omega
  have hrun : activeNoDrain st (inp :: rest) = true :=
    (activeNoDrain_cons st inp rest).mpr ⟨hact, hnd0, hrun1⟩
  obtain ⟨g1, _, g3, _, g5, _, g7, g8, g9, _⟩ := runLoop_streak st inp rest lblStoop hL hfresh hrun
  rw [← hfull, wrapInt32_of_inInt32 (hrange _ (le_refl _))] at g5 g7 g9
  have hN2 : rest ≠ [] := by
    intro h0
    rw [h0] at hN
    simp at hN
  obtain ⟨g9a, g9b⟩ := (g9 hN2).1 ⟨rfl, hcross⟩
  refine ⟨?_, g1, g9a, g9b, g3, g5, g7, g8⟩
  intro k hk1 hk2
  obtain ⟨k, rfl⟩ : ∃ j, k = j + 1 := ⟨k - 1, by omega⟩
  have hLk : ∀ x ∈ inp :: rest.take k, classify x.scores = lblStoop := by
    intro x hx
    rcases List.mem_cons.mp hx with rfl | hx
    · exact hL0
    · exact hL x (List.mem_cons_of_mem _ (List.mem_of_mem_take hx))
  have hrunk : activeNoDrain st (inp :: rest.take k) = true :=
    (activeNoDrain_cons st inp _).mpr ⟨hact, hnd0, activeNoDrain_take rest _ k hrun1⟩
  obtain ⟨p1, _, _, _, _, _, _, _, p9, p10⟩ :=
    runLoop_streak st inp (rest.take k) lblStoop hLk hfresh hrunk
  rw [List.take_succ_cons]
  refine ⟨p1, ?_⟩
  by_cases hk0 : rest.take k = []
  · exact p10 hk0
  · apply (p9 hk0).2
    intro hc
    have hkpos : 1 ≤ k := by
      rcases k with _ | k
      · simp at hk0
      · omega
    have hsum : (elapsedTimes st.loopNew (inp :: rest.take k)).sum
        = streakSum st (inp :: rest) (k + 1) := by
      rw [hsumk k, elapsedTimes_sum_cons, elapsedTimes_take]
    rw [hsum, wrapInt32_of_inInt32 (hrange (k + 1) (by omega))] at hc
    have := hearlier (k + 1) (by omega) (by omega)
    omega

/-- Instance of `idle_timeout` (C4), the example of the specification: from the
initial state, `Stand` (500 ms) twice and `Stoop` (500 ms) sixty-one times.
The classifier is still enabled after the 60th `Stoop` iteration (30000 ms) and
disabled after the 61st (30500 ms); then the cursor is 2, slot 0 holds `Stand`
with duration 1000, slot 1 holds `Stoop` with duration 30500 and the label is
`x`. -/
theorem idle_timeout_witness :
    (runLoop initialState standTicks).state.ML_enabled = true ∧
    (runLoop initialState standTicks).state.NN_State ≠ lblStoop ∧
    noBatchDue (runLoop initialState standTicks).state stoopTicks = true ∧
    (runLoop initialState (standTicks ++ stoopTicks.take 60)).state.ML_enabled = true ∧
    (runLoop initialState (standTicks ++ stoopTicks)).state.ML_enabled = false ∧
    (runLoop initialState (standTicks ++ stoopTicks)).state.NN_State = lblUnset ∧
    (runLoop initialState (standTicks ++ stoopTicks)).state.i = 2 ∧
    slotText (runLoop initialState (standTicks ++ stoopTicks)).state.message 0
      = formatRecord "20240101 12:00:00".toList 3 lblStand 1000 ∧
    slotText (runLoop initialState (standTicks ++ stoopTicks)).state.message 1
      = formatRecord "20240101 12:00:00".toList 3 lblStoop 30500 := by
  have hc : (runLoop initialState standTicks).cleanup = false := by decide
  have hi : (runLoop initialState standTicks).state.i = 1 := by decide
  have h := idle_timeout (runLoop initialState standTicks).state
    (tickAt scoresStoop 1000 1500)
    ((List.range 60).map (fun (k : Nat) =>
      tickAt scoresStoop (1000 + 500 * ((k + 1 : Nat) : Int)) (1500 + 500 * ((k + 1 : Nat) : Int))))
    (by decide) (by decide) (by decide) (by decide) (by decide) (by decide) (by decide)
    (by decide)
  have hst : tickAt scoresStoop 1000 1500 ::
      (List.range 60).map (fun (k : Nat) =>
        tickAt scoresStoop (1000 + 500 * ((k + 1 : Nat) : Int))
          (1500 + 500 * ((k + 1 : Nat) : Int))) = stoopTicks := by
    rfl
  rw [hst] at h
  obtain ⟨h1, h2, h3, h4, h5, h6, h7, h8⟩ := h
  obtain ⟨a1, a2⟩ := runLoop_append standTicks initialState stoopTicks hc
  obtain ⟨b1, _⟩ := runLoop_append standTicks initialState (stoopTicks.take 60) hc
  rw [a1, b1]
  rw [hi] at h5 h7 h8
  refine ⟨by decide, by decide, by decide, (h1 60 (by decide) (by decide)).2.1, h3, h4, h5,
    ?_, h7.trans (by decide)⟩
  have hlen : (0 : Int) + (loadCStr (runLoop initialState standTicks).state.message 0 96000).length
      < slotAddr 1 := by decide
  have hcg := loadCStr_congr (runLoop (runLoop initialState standTicks).state stoopTicks).state.message
    (runLoop initialState standTicks).state.message (slotAddr 1) 96000 0
    (fun a _ ha => h8 a ha) hlen
  have h0 : slotText (runLoop initialState standTicks).state.message 0
      = formatRecord "20240101 12:00:00".toList 3 lblStand 1000 := by decide
  rw [← h0]
  exact hcg

/-! ## C5: fatal condition -/

/-- C5, evaluation.  After `fillTicks` and `fillWake` the cursor is 1200.  In
the batch of the next iteration the first record, slot 1199, is sent and the
second, slot 1198, cannot be created: control goes to `cleanup`. -/
theorem later_failure_terminates_evaluation :
    (runLoop initialState (fillTicks ++ [fillWake])).cleanup = false ∧
    (runLoop initialState (fillTicks ++ [fillWake])).state.i = 1200 ∧
    failAfterFirst.send 1199 = SendOutcome.sent ∧
    failAfterFirst.send 1198 = SendOutcome.createFailed ∧
    (loopBody (runLoop initialState (fillTicks ++ [fillWake])).state failAfterFirst).trace
      = [Access.drainRead 1199, Access.drainRead 1198] ∧
    (loopBody (runLoop initialState (fillTicks ++ [fillWake])).state failAfterFirst).cleanup
      = true := by
  decide!

/-! ## C6: overflow policy -/

/-- C6, evaluation.  After `fillTicks` the cursor is 1198, the classifier is
disabled and the label is `x`.  In the next iteration no batch is due; the wake
of line 330 moves the cursor to 1199 (`message_buf_size - 1`) and line 377 of
the same iteration writes slot 1199 and moves the cursor to 1200: the only use
of `message` in the iteration is that write, no record is read for sending. -/
theorem overflow_policy_evaluation :
    (runLoop initialState fillTicks).cleanup = false ∧
    (runLoop initialState fillTicks).state.i = 1198 ∧
    (runLoop initialState fillTicks).state.ML_enabled = false ∧
    drainDue (runLoop initialState fillTicks).state fillWake = false ∧
    (classifyOrPoll (batchSend (runLoop initialState fillTicks).state fillWake).state fillWake).i
      = message_buf_size - 1 ∧
    (loopBody (runLoop initialState fillTicks).state fillWake).trace = [Access.append 1199] ∧
    (loopBody (runLoop initialState fillTicks).state fillWake).cleanup = false ∧
    (loopBody (runLoop initialState fillTicks).state fillWake).state.i = 1200 := by
  decide!

/-! ## C7: wake iteration -/

/-- C7, evaluation.  After `sleepTicks` the classifier is disabled, the
cursor is 1 and the label is `x`.
(a) A poll above the limit right away takes the branch of lines 360-379, but the
cursor grows from 1 to 3 and the record goes to slot 2: slot 1, at the old
cursor, is not written.
(b) After one poll at rest (cursor 2, label `Unused`, streak 1000 ms), a poll
above the limit takes the branch of lines 345-358: the timestamp is the one of
the earlier poll although the clock has changed, `streak_duration` is the
accumulated 2000 ms and not the 1000 ms of the iteration, and the record is
written by the rewrite of slot 2. -/
theorem wake_iteration_evaluation :
    ((runLoop initialState sleepTicks).state.i = 1 ∧
      (runLoop initialState sleepTicks).state.NN_State = lblUnset ∧
      (runLoop initialState sleepTicks).state.ML_enabled = false ∧
      (loopBody (runLoop initialState sleepTicks).state (wakePoll 31000 31010)).state.ML_enabled
        = true ∧
      (loopBody (runLoop initialState sleepTicks).state (wakePoll 31000 31010)).trace
        = [Access.append 2] ∧
      (loopBody (runLoop initialState sleepTicks).state (wakePoll 31000 31010)).state.i = 3 ∧
      slotText
        (loopBody (runLoop initialState sleepTicks).state (wakePoll 31000 31010)).state.message 1
        = []) ∧
    ((runLoop initialState (sleepTicks ++ [restPoll])).state.i = 2 ∧
      (runLoop initialState (sleepTicks ++ [restPoll])).state.NN_State
        = lblUnused ∧
      (runLoop initialState (sleepTicks ++ [restPoll])).state.ML_enabled = false ∧
      (runLoop initialState (sleepTicks ++ [restPoll])).state.streak_duration
        = 1000 ∧
      (runLoop initialState (sleepTicks ++ [restPoll])).state.ts_string
        = formatTimestamp exampleClock ∧
      (loopBody (runLoop initialState (sleepTicks ++ [restPoll])).state
        (wakePoll 32000 33000)).state.ML_enabled = true ∧
      (loopBody (runLoop initialState (sleepTicks ++ [restPoll])).state
        (wakePoll 32000 33000)).trace = [Access.rewrite 2] ∧
      (loopBody (runLoop initialState (sleepTicks ++ [restPoll])).state
        (wakePoll 32000 33000)).state.i = 3 ∧
      (loopBody (runLoop initialState (sleepTicks ++ [restPoll])).state
        (wakePoll 32000 33000)).state.streak_duration = 2000 ∧
      (loopBody (runLoop initialState (sleepTicks ++ [restPoll])).state
        (wakePoll 32000 33000)).state.ts_string = formatTimestamp exampleClock ∧
      formatTimestamp (wakePoll 32000 33000).clock ≠ formatTimestamp exampleClock) := by
  decide

/-! ## C8: wake condition -/

/-- C8, counterexample.  After `sleepTicks` the classifier is disabled; a poll
that reads -6000 on the first axis (magnitude 6000, above 5000) reaches the
gyroscope test and leaves the classifier disabled. -/
theorem wake_condition_negative_axis_counterexample :
    (runLoop initialState sleepTicks).state.ML_enabled = false ∧
    5000 < negativePoll.gyro0.natAbs ∧
    (loopBody (runLoop initialState sleepTicks).state negativePoll).cleanup = false ∧
    (loopBody (runLoop initialState sleepTicks).state negativePoll).state.ML_enabled = false := by
  decide

/-- C8 as amended (wake condition).  In an iteration that starts with the
classifier disabled and reaches the gyroscope poll, the classifier is enabled
again if and only if at least one of the three signed axis readings is greater
than 5000. -/
theorem wake_condition (st : State) (inp : Input)
    (hlow : st.ML_enabled = false)
    (hgo : (loopBody st inp).cleanup = false) :
    (loopBody st inp).state.ML_enabled = true ↔
      (inp.gyro0 > 5000 ∨ inp.gyro1 > 5000 ∨ inp.gyro2 > 5000) := by
  have hb : (batchSend st inp).cleanup = false := by
    by_contra hc
    simp [loopBody, hc] at hgo
  have hml : (batchSend st inp).state.ML_enabled = false := by
    by_cases hd : drainDue st inp = true
    · rw [(batchSend_due st inp hd).2.2.2.2.1, hlow]
    · simp [batchSend, hd, hlow]
  have hus : lblUnused ≠ lblStoop := by decide
  by_cases hg : gyroOverLimit inp = true
  · have hg2 : inp.gyro0 > 5000 ∨ inp.gyro1 > 5000 ∨ inp.gyro2 > 5000 := by
      simpa [gyroOverLimit, or_assoc] using hg
    simp only [hg2, iff_true]
    by_cases heq : lblUnused = (batchSend st inp).state.NN_State
    · simp [loopBody, hb, classifyOrPoll, hml, hg, measureDuration, streakUpdate, ← heq, hus]
    · simp [loopBody, hb, classifyOrPoll, hml, hg, measureDuration, streakUpdate, heq]
  · have hg2 : ¬ (inp.gyro0 > 5000 ∨ inp.gyro1 > 5000 ∨ inp.gyro2 > 5000) := by
      simpa [gyroOverLimit, or_assoc] using hg
    simp only [hg2, iff_false]
    by_cases heq : lblUnused = (batchSend st inp).state.NN_State
    · simp [loopBody, hb, classifyOrPoll, hml, hg, measureDuration, streakUpdate, ← heq, hus]
    · simp [loopBody, hb, classifyOrPoll, hml, hg, measureDuration, streakUpdate, heq]

/-- Instance of `wake_condition` (C8): after `sleepTicks` a poll that reads 6000 on
the first axis enables the classifier. -/
theorem wake_condition_witness :
    (runLoop initialState sleepTicks).state.ML_enabled = false ∧
    (loopBody (runLoop initialState sleepTicks).state (wakePoll 31000 31010)).cleanup = false ∧
    (wakePoll 31000 31010).gyro0 > 5000 ∧
    (loopBody (runLoop initialState sleepTicks).state (wakePoll 31000 31010)).state.ML_enabled
      = true :=
  have h := wake_condition (runLoop initialState sleepTicks).state (wakePoll 31000 31010)
    (by decide) (by decide)
  ⟨by decide, by decide, by decide, h.mpr (Or.inl (by decide))⟩

/-! ## C9: slot indices -/

/-- C9 (slot indices stay in range).  Whatever the classifier scores, timer
readings, gyroscope readings, clock values and send outcomes, every use of
`message` by the loop run from the initial state has a slot index in
`0..message_buf_size-1`: the rewrite of line 347 (index `i-1`, so it never runs
with `i = 0`), the write of line 377 (index `i`) and every read of the send
loop. -/
theorem slot_indices_in_range (inputs : List Input) :
    ∀ a ∈ (runLoop initialState inputs).trace,
      0 ≤ a.slot ∧ a.slot < message_buf_size := by
  intro a ha
  exact (runLoop_bounds inputs initialState cursorInv_initialState).1 a ha

/-- Instance of `slot_indices_in_range` (C9): the write of line 377 in the first
iteration of `standTicks` uses slot 0. -/
theorem slot_indices_in_range_witness :
    Access.append 0 ∈ (runLoop initialState standTicks).trace ∧
    0 ≤ (Access.append 0).slot ∧ (Access.append 0).slot < message_buf_size :=
  ⟨by decide, slot_indices_in_range standTicks (Access.append 0) (by decide)⟩

/-! ## C10: length of a record -/

/-- C10, evaluation.  The record `Unused` with duration 10000 ms is 80
characters long, one more than a slot can hold with its terminator; ten polls
at rest, one second apart, after `sleepTicks` leave that record in slot 1. -/
theorem record_overruns_slot_evaluation :
    (formatRecord "20240101 13:00:00".toList DeviceID lblUnused 10000).length = 80 ∧
    (runLoop initialState (sleepTicks ++ quietPolls)).cleanup = false ∧
    (runLoop initialState (sleepTicks ++ quietPolls)).state.i = 2 ∧
    slotText (runLoop initialState (sleepTicks ++ quietPolls)).state.message 1
      = formatRecord "20240101 13:00:00".toList DeviceID lblUnused 10000 ∧
    slot_size < (slotText (runLoop initialState (sleepTicks ++ quietPolls)).state.message 1).length
      + 1 := by
  decide!

end MotionNode
